import Mathlib

/-!
Shallow embedding of the beam-search core of `src/src/pq_flash_index.cpp`
(`PQFlashIndex<T, LabelT>::cached_beam_search`, `range_search`,
`cache_bfs_levels`) together with the helper routines it calls
(`fetch_embeddings_http` / `fetch_embeddings_zmq` modelled as an oracle,
`preprocess_fetched_embeddings`, the `compute_dists` and `prune_node_nbrs`
lambdas, `point_has_label`).

Modelling conventions:
* distances (C++ `float`/`double`) are represented by `ℚ`; the claims under
  study concern control flow, counting and ordering, not rounding;
* external kernels that live outside `src/` (the virtual `Distance::compare`
  kernels of distance.h, the PQ lookup pipeline of pq.cpp, `std::sqrt`,
  the ZMQ embedding server) are oracle fields of `IndexEnv`;
* the element type `T` is instantiated at `float` (the `(T)` casts in the
  query-normalisation code are then the identity);
* `QueryStats*` is modelled as always present; its timer fields
  (`io_us`, `cpu_us`, `total_us`) are not modelled;
* C++ out-of-bounds accesses of `std::vector` (undefined behaviour) surface
  as explicit `SearchError` values where a claim depends on them.
-/

deriving instance DecidableEq for Except

unseal Rat.add Rat.mul Rat.sub Rat.inv

set_option maxRecDepth 100000

namespace DiskANN

abbrev NodeId := ℕ
abbrev Dist := ℚ
abbrev Label := ℕ
/-- A full-precision vector (C++ `T*` / `float*` buffers). -/
abbrev Vec := List ℚ

/-- `diskann::Metric` (the three values used by `pq_flash_index.cpp`). -/
inductive Metric
  | L2
  | COSINE
  | INNER_PRODUCT
deriving DecidableEq, Repr

/-- `defaults::SECTOR_LEN`. Modelled from the spec: `defaults.h` is not under
`src/`; the spec fixes the sector size at 4096 bytes. -/
def SECTOR_LEN : ℕ := 4096

/-- `FULL_PRECISION_REORDER_MULTIPLIER` from `src/include/pq_flash_index.h`. -/
def FULL_PRECISION_REORDER_MULTIPLIER : ℕ := 3

/-- `DIV_ROUND_UP(X, Y) = X/Y + (X % Y != 0)`. -/
def divRoundUp (x y : ℕ) : ℕ := x / y + (if x % y ≠ 0 then 1 else 0)

/-- `FLT_MAX`, the initial value of `best_dist` in the medoid selection. -/
def fltMax : ℚ := 340282346638528859811704183484516925440

/-- `std::vector::resize(n, fill)`: truncate to `n` or pad with `fill`. -/
def resizeVec (v : Vec) (n : ℕ) (fill : ℚ) : Vec :=
  if n ≤ v.length then v.take n else v ++ List.replicate (n - v.length) fill

/-- First-match lookup in an association list (model of `std::map::find`). -/
def assocLookup (m : List (ℕ × ℚ)) (k : ℕ) : Option ℚ :=
  match m.find? (fun p => p.1 = k) with
  | some p => some p.2
  | none => none

/-- `std::map` assignment `m[k] = v`: overwrite if present, append otherwise. -/
def assocInsert (m : List (ℕ × ℚ)) (k : ℕ) (v : ℚ) : List (ℕ × ℚ) :=
  if (assocLookup m k).isSome then m.map (fun p => if p.1 = k then (k, v) else p)
  else m ++ [(k, v)]

/-- `diskann::Neighbor` (id plus distance). Modelled from the spec:
`neighbor.h` is not under `src/`; the spec describes `Neighbor{id, dist}`
ordered by ascending distance with ties broken by lower id. -/
structure Neighbor where
  id : NodeId
  distance : Dist
deriving DecidableEq, Repr

/-- Lexicographic "is at most" on (distance, id) pairs; the total preorder
underlying `Neighbor::operator<` (ascending distance, lower id on ties). -/
def pairLe (p q : Dist × ℕ) : Prop :=
  p.1 < q.1 ∨ (p.1 = q.1 ∧ p.2 ≤ q.2)

instance : DecidableRel pairLe := fun p q => by
  unfold pairLe; infer_instance

instance : IsTotal (Dist × ℕ) pairLe := by
  refine ⟨fun p q => ?_⟩
  rcases lt_trichotomy p.1 q.1 with h | h | h
  · exact Or.inl (Or.inl h)
  · rcases le_total p.2 q.2 with h2 | h2
    · exact Or.inl (Or.inr ⟨h, h2⟩)
    · exact Or.inr (Or.inr ⟨h.symm, h2⟩)
  · exact Or.inr (Or.inl h)

instance : IsTrans (Dist × ℕ) pairLe := by
  refine ⟨fun p q r hpq hqr => ?_⟩
  rcases hpq with h1 | ⟨h1, h1b⟩ <;> rcases hqr with h2 | ⟨h2, h2b⟩
  · exact Or.inl (h1.trans h2)
  · exact Or.inl (h2 ▸ h1)
  · exact Or.inl (h1 ▸ h2)
  · exact Or.inr ⟨h1.trans h2, h1b.trans h2b⟩

/-- The sort order used on `Neighbor` (`std::sort(full_retset...)`). -/
def nbrLe (a b : Neighbor) : Prop := pairLe (a.distance, a.id) (b.distance, b.id)

instance : DecidableRel nbrLe := fun a b => by
  unfold nbrLe; infer_instance

instance : IsTotal Neighbor nbrLe :=
  ⟨fun a b => IsTotal.total (r := pairLe) (a.distance, a.id) (b.distance, b.id)⟩

instance : IsTrans Neighbor nbrLe :=
  ⟨fun a b c => IsTrans.trans (r := pairLe) (a.distance, a.id) (b.distance, b.id)
    (c.distance, c.id)⟩

/-- Comparison on `(node, score)` pairs by score, the comparator of the
`std::sort` inside `prune_node_nbrs` (`a.second < b.second`; order of
equal scores is left unspecified by `std::sort`, the model sorts stably). -/
def sndLe (a b : NodeId × Dist) : Prop := a.2 ≤ b.2

instance : DecidableRel sndLe := fun a b => by
  unfold sndLe; infer_instance

instance : IsTotal (NodeId × Dist) sndLe := ⟨fun a b => le_total a.2 b.2⟩

instance : IsTrans (NodeId × Dist) sndLe := ⟨fun _ _ _ h1 h2 => le_trans h1 h2⟩

/-- An entry of the frontier: a neighbor plus its `expanded` flag. -/
structure PQEntry where
  id : NodeId
  distance : Dist
  expanded : Bool
deriving DecidableEq, Repr

/-- Entry order: same key as `nbrLe` (the `expanded` flag is not compared). -/
def entryLe (a b : PQEntry) : Prop := pairLe (a.distance, a.id) (b.distance, b.id)

instance : DecidableRel entryLe := fun a b => by
  unfold entryLe; infer_instance

/-- `diskann::NeighborPriorityQueue` (the `retset`). Modelled from the spec:
`neighbor.h` is not under `src/`. Per the spec it is a bounded best-first
container with capacity `l_search`, keyed on ascending distance (ties by
lower id), inserting a node at most once, dropping the worst when full,
with `has_unexpanded_node` and `closest_unexpanded` (which marks the
returned entry expanded). `data` is kept sorted by `entryLe`. -/
structure NeighborPriorityQueue where
  capacity : ℕ
  data : List PQEntry
deriving DecidableEq, Repr

namespace NeighborPriorityQueue

/-- Insert a neighbor as an unexpanded entry, keeping the list sorted and
dropping the worst entry when the capacity is exceeded; a node id already
present is not inserted again. -/
def insert (q : NeighborPriorityQueue) (nb : Neighbor) : NeighborPriorityQueue :=
  if q.data.any (fun e => e.id = nb.id) then q
  else { q with data := (List.orderedInsert entryLe ⟨nb.id, nb.distance, false⟩ q.data).take q.capacity }

/-- `has_unexpanded_node()`. -/
def hasUnexpanded (q : NeighborPriorityQueue) : Bool :=
  q.data.any (fun e => !e.expanded)

/-- Mark the first unexpanded entry of a sorted entry list as expanded,
returning it. -/
def markFirst : List PQEntry → Option (Neighbor × List PQEntry)
  | [] => none
  | e :: rest =>
    if e.expanded then
      match markFirst rest with
      | none => none
      | some (nb, rest') => some (nb, e :: rest')
    else some (⟨e.id, e.distance⟩, { e with expanded := true } :: rest)

/-- `closest_unexpanded()`: return the best unexpanded entry and mark it. -/
def closestUnexpanded (q : NeighborPriorityQueue) : Option (Neighbor × NeighborPriorityQueue) :=
  match markFirst q.data with
  | none => none
  | some (nb, d) => some (nb, { q with data := d })

end NeighborPriorityQueue

/-- The loaded, read-only state of a `PQFlashIndex<float, uint32_t>` plus the
external oracles the search consults.  Fields mirror the data members of the
class (`src/include/pq_flash_index.h`); functions stand for state whose
producing code lives outside `src/` (distance kernels of distance.h, the PQ
pipeline of pq.cpp, `std::sqrt`, the embedding server). -/
structure IndexEnv where
  metric : Metric
  /-- `_data_dim`. -/
  dataDim : ℕ
  /-- `_aligned_dim`. -/
  alignedDim : ℕ
  /-- `_max_node_len`. -/
  maxNodeLen : ℕ
  /-- `defaults::MAX_N_SECTOR_READS`. Modelled from the spec: `defaults.h`
  is not under `src/`; the constant is kept abstract. -/
  maxNSectorReads : ℕ
  /-- `_num_points`. -/
  numPoints : ℕ
  /-- `_medoids` (length `_num_medoids`). -/
  medoids : List NodeId
  /-- `_centroid_data + _aligned_dim * cur_m` for medoid index `cur_m`. -/
  centroidData : ℕ → Vec
  /-- `_dist_cmp->compare(a, b, dim)` (also standing in for
  `_dist_cmp_float->compare`, identical for `T = float`). -/
  distCmp : ℕ → Vec → Vec → Dist
  /-- `std::sqrt` on the rational model of `float`. -/
  sqrtF : ℚ → ℚ
  /-- The PQ distance of the current query to a node id:
  `aggregate_coords` + `pq_dist_lookup` over `data`, `_pq_table`,
  `pq_dists` (pq.cpp is not under `src/`). -/
  pqDist : NodeId → Dist
  /-- `_nhood_cache`: cached adjacency `(nnbrs, nbrs)` per id. -/
  nhoodCache : NodeId → Option (List NodeId)
  /-- `_coord_cache` (looked up only on `_nhood_cache` hits). -/
  coordCache : NodeId → Vec
  /-- Coordinates decoded from the node's sector(s)
  (`offset_to_node_coords`); reads are modelled as always succeeding. -/
  diskCoords : NodeId → Vec
  /-- Adjacency decoded from the node's sector(s) (`offset_to_node_nhood`). -/
  diskNbrs : NodeId → List NodeId
  /-- `_use_partition`. -/
  usePartition : Bool
  /-- Adjacency decoded from the partition-graph sector
  (`_graph_partitions` / `_id2partition` / `graph_reader`). -/
  partitionNbrs : NodeId → List NodeId
  /-- In partition mode the non-memoised distance branch still reads
  `offset_to_node_coords(node_disk_buf)` although the buffer was filled with
  graph-only sector data; the bytes so reinterpreted are modelled as an
  unspecified per-id value. -/
  staleCoords : NodeId → Vec
  /-- `_use_disk_index_pq`. -/
  useDiskIndexPQ : Bool
  /-- `_disk_pq_table.inner_product(query_float, code_bytes)`. -/
  diskPQip : Vec → Vec → Dist
  /-- `_disk_pq_table.l2_distance(query_float, code_bytes)`. -/
  diskPQl2 : Vec → Vec → Dist
  /-- `_dummy_pts`. -/
  dummyPts : List NodeId
  /-- `_dummy_to_real_map`. -/
  dummyToReal : NodeId → NodeId
  /-- `_pts_to_labels` slice for a point (`point_has_label` scans it). -/
  ptsToLabels : NodeId → List Label
  /-- `_use_universal_label`. -/
  useUniversalLabel : Bool
  /-- `_universal_filter_label`. -/
  universalLabel : Label
  /-- `_filter_to_medoid_ids`. -/
  filterToMedoids : List (Label × List NodeId)
  /-- `_max_base_norm`. -/
  maxBaseNorm : ℚ
  /-- `_reorder_data_exists`. -/
  reorderDataExists : Bool
  /-- Full-precision vector of a node in the reorder region. -/
  reorderCoords : NodeId → Vec
  /-- Per-node success flag of `read_nodes` (the per-entry booleans the
  batched reader reports; consulted by `cache_bfs_levels`). -/
  readOk : NodeId → Bool
  /-- `fetch_embeddings_http(node_ids, out, _zmq_port)`: `none` models any
  failure inside `fetch_embeddings_zmq` (serialisation, socket, connect,
  send, recv/timeout, parse, bad dimensions, blob-size mismatch — all of
  which make it return `false`); `some embs` models success, with `embs`
  the decoded `batch × dim` rows. -/
  fetch : List NodeId → Option (List Vec)

/-- `point_has_label(point_id, label_id)`: scan the point's label slice. -/
def pointHasLabel (env : IndexEnv) (pt : NodeId) (l : Label) : Bool :=
  decide (l ∈ env.ptsToLabels pt)

/-- The boolean/option parameters of `cached_beam_search`. -/
structure SearchFlags where
  useFilter : Bool
  filterLabel : Label
  useReorderData : Bool
  /-- `USE_DEFERRED_FETCH`. -/
  deferredFetch : Bool
  /-- `skip_search_reorder`. -/
  skipSearchReorder : Bool
  /-- `recompute_beighbor_embeddings`. -/
  recompute : Bool
  /-- `dedup_node_dis`. -/
  dedupNodeDis : Bool
  /-- The caller-supplied `prune_ratio` argument (flipped to `1 - x` on
  entry; the flipped value is threaded separately as `pruneKeep`). -/
  pruneFracIn : ℚ
  batchRecompute : Bool
  globalPruning : Bool
deriving DecidableEq, Repr

/-- The counters of `diskann::QueryStats` that the search updates
(timer fields are not modelled). -/
structure QueryStats where
  nHops : ℕ := 0
  n4k : ℕ := 0
  nIos : ℕ := 0
  nCmps : ℕ := 0
  nCacheHits : ℕ := 0
deriving DecidableEq, Repr

/-- Per-query state owned by the `compute_dists` lambda: the
`node_distances` memo map and the cache-hit counters. -/
structure DistCtx where
  nodeDistances : List (ℕ × ℚ) := []
  totalRequested : ℕ := 0
  fromCache : ℕ := 0
deriving DecidableEq, Repr

/-- Bundle of the per-call constants threaded through the search loop. -/
structure SearchCtx where
  env : IndexEnv
  flags : SearchFlags
  /-- `prune_ratio` after the `prune_ratio = 1 - prune_ratio` flip: the
  fraction of neighbours to keep. -/
  pruneKeep : ℚ
  /-- `aligned_query_T` (already normalised; padded to `_aligned_dim`). -/
  alignedQuery : Vec
  /-- `query_float` (equal to the aligned query for `T = float`). -/
  queryFloat : Vec
  beamWidth : ℕ
  ioLimit : ℕ

/-- `preprocess_fetched_embeddings` (src/src/pq_flash_index.cpp:1715),
acting on one embedding. -/
def preprocessEmb (env : IndexEnv) (emb0 : Vec) : Vec :=
  let emb := if emb0.length < env.dataDim - 1 then
      emb0 ++ List.replicate (env.dataDim - 1 - emb0.length) 0
    else emb0
  match env.metric with
  | .INNER_PRODUCT =>
    let normSq := ((emb.take (env.dataDim - 1)).map (fun x => x * x)).sum
    let emb := emb.enum.map (fun p => if p.1 < env.dataDim - 1 then p.2 / env.maxBaseNorm else p.2)
    let res0 := 1 - normSq / (env.maxBaseNorm * env.maxBaseNorm)
    let res := if res0 ≤ 0 then 0 else env.sqrtF res0
    resizeVec emb env.dataDim res
  | .COSINE =>
    let nrm := env.sqrtF ((emb.map (fun x => x * x)).sum)
    if 0 < nrm then emb.map (fun x => x / nrm) else emb
  | .L2 => emb

/-- The ids `compute_dists` will send to the embedding server: with
`dedup_node_dis` only the ids missing from the memo, otherwise all ids. -/
def fetchCandidates (dedup : Bool) (dctx : DistCtx) (ids : List NodeId) : List NodeId :=
  if dedup then ids.filter (fun id => (assocLookup dctx.nodeDistances id).isNone) else ids

/-- `embeddings[idx].resize(aligned_dim, 0); memcpy(data_buf, ...);
_dist_cmp->compare(aligned_query_T, data_buf, aligned_dim)`. -/
def embDist (c : SearchCtx) (e : Vec) : Dist :=
  c.env.distCmp c.env.alignedDim c.alignedQuery (resizeVec e c.env.alignedDim 0)

/-- The dedup branch of `compute_dists` after a successful fetch: walk the
original positions, serving memoised entries and pairing the others with
successive fetched embeddings.  `i` is the original index, `idx` the
embedding index.  Source line 1965 stores the memo under `node_ids[i]`
(not `node_ids[idx]`): an out-of-range `i` is undefined behaviour in C++,
modelled as leaving the memo unchanged. -/
def dedupAssemble (c : SearchCtx) (nodeIds : List NodeId) :
    List (NodeId × Option Dist) → ℕ → ℕ → List Vec → List (ℕ × ℚ) →
    List Dist × List (ℕ × ℚ)
  | [], _, _, _, memo => ([], memo)
  | p :: rest, i, idx, embs, memo =>
    match p.2 with
    | some d =>
      let r := dedupAssemble c nodeIds rest (i + 1) idx embs memo
      (d :: r.1, r.2)
    | none =>
      let d := embDist c (embs.getD idx [])
      let memo' := match nodeIds.get? i with
        | some nid => assocInsert memo nid d
        | none => memo
      let r := dedupAssemble c nodeIds rest (i + 1) (idx + 1) embs memo'
      (d :: r.1, r.2)

/-- The `compute_dists` lambda of `cached_beam_search`
(src/src/pq_flash_index.cpp:1875-1987). -/
def computeDists (c : SearchCtx) (dctx : DistCtx) (ids : List NodeId) :
    List Dist × DistCtx :=
  if !c.flags.recompute then (ids.map c.env.pqDist, dctx)
  else
    let dctx1 := { dctx with totalRequested := dctx.totalRequested + ids.length }
    let cachedVals : List (Option Dist) :=
      if c.flags.dedupNodeDis then ids.map (fun id => assocLookup dctx.nodeDistances id)
      else ids.map (fun _ => none)
    let nodeIds := fetchCandidates c.flags.dedupNodeDis dctx ids
    let dctx2 := { dctx1 with fromCache := dctx1.fromCache + cachedVals.countP (fun o => o.isSome) }
    if c.flags.dedupNodeDis ∧ nodeIds = [] then
      ((ids.zip cachedVals).map (fun p => p.2.getD 0), dctx2)
    else
      match c.env.fetch nodeIds with
      | none => (ids.map c.env.pqDist, dctx2)
      | some embs =>
        if embs.length ≠ nodeIds.length then (ids.map c.env.pqDist, dctx2)
        else
          let embs := embs.map (preprocessEmb c.env)
          if c.flags.dedupNodeDis then
            let r := dedupAssemble c nodeIds (ids.zip cachedVals) 0 0 embs dctx2.nodeDistances
            (r.1, { dctx2 with nodeDistances := r.2 })
          else
            (embs.map (embDist c), dctx2)

/-- The `prune_node_nbrs` lambda (src/src/pq_flash_index.cpp:2001-2096).
Returns the pruned neighbour list and the updated shared priority queue
`aq_priority_queue` (a min-heap on `(pq_dist, id)` pairs, modelled as a
`pairLe`-sorted list; popping and rolling back leaves it unchanged as a
multiset, hence unchanged in the sorted representation).  The loop bound
`i < prune_ratio * original_size` runs for `⌈prune_ratio·size⌉` iterations
(clamped at the heap size; popping an empty heap would be UB). -/
def pruneNodeNbrs (c : SearchCtx) (visited : List NodeId)
    (aq : List (Dist × NodeId)) (nbrs : List NodeId) :
    List NodeId × List (Dist × NodeId) :=
  if !c.flags.recompute then (nbrs, aq)
  else if nbrs.length ≤ 10 then (nbrs, aq)
  else
    let dists := nbrs.map c.env.pqDist
    if c.flags.globalPruning then
      let aq := (dists.zip nbrs).foldl (fun q p => List.orderedInsert pairLe p q) aq
      let cnt := min (Int.toNat ⌈c.pruneKeep * (aq.length : ℚ)⌉) aq.length
      let promising := (aq.take cnt).filter (fun p => !(decide (p.2 ∈ visited)))
      (promising.map (fun p => p.2), aq)
    else
      let scored := nbrs.zip dists
      let sorted := List.insertionSort sndLe scored
      let newN := max 10 (Int.toNat ⌊c.pruneKeep * (nbrs.length : ℚ)⌋)
      if newN < nbrs.length then ((sorted.take newN).map (fun p => p.1), aq)
      else (nbrs, aq)

/-- The mutable state of one traversal (`retset`, `visited`, `full_retset`,
the `compute_dists` memo, the shared pruning heap, and the counters). -/
structure LoopState where
  retset : NeighborPriorityQueue
  visited : List NodeId
  fullRetset : List Neighbor
  distCtx : DistCtx
  aqPQ : List (Dist × NodeId)
  numIos : ℕ
  hops : ℕ
  cmps : ℕ
  stats : QueryStats
deriving DecidableEq, Repr

/-- The beam-selection inner loop
(src/src/pq_flash_index.cpp:2181-2203): pop `closest_unexpanded` while the
queue has unexpanded nodes, `frontier.size() < beam_width` and
`num_seen < beam_width`.  `fuel` is the remaining `num_seen` budget and
`fc` the current `frontier.size()` (uncached pops only).  Returns the
popped ids in pop order and the queue with them marked expanded. -/
def popBeamGo (cacheHit : NodeId → Bool) (bw : ℕ) :
    ℕ → ℕ → NeighborPriorityQueue → List NodeId × NeighborPriorityQueue
  | 0, _, q => ([], q)
  | fuel + 1, fc, q =>
    if fc < bw then
      match q.closestUnexpanded with
      | none => ([], q)
      | some (nb, q') =>
        let fc' := if cacheHit nb.id then fc else fc + 1
        let r := popBeamGo cacheHit bw fuel fc' q'
        (nb.id :: r.1, r.2)
    else ([], q)

/-- Select up to `beam_width` candidates from the frontier. -/
def popBeam (cacheHit : NodeId → Bool) (bw : ℕ) (q : NeighborPriorityQueue) :
    List NodeId × NeighborPriorityQueue :=
  popBeamGo cacheHit bw bw 0 q

/-- One step of the neighbour-insertion loop shared by the cached-nhood,
frontier and batched paths
(src/src/pq_flash_index.cpp:2378-2394, 2576-2597, 2621-2642): skip the id
if `visited.insert(id)` finds it already present; otherwise record it
visited, skip dummies (unfiltered search) and label mismatches (filtered
search), and insert into `retset`.  `bumpPerInsert` reproduces the extra
`stats->n_cmps++` per inserted neighbour present only in the frontier and
batched loops. -/
def insertOneNbr (c : SearchCtx) (bumpPerInsert : Bool) (st : LoopState)
    (p : NodeId × Dist) : LoopState :=
  if p.1 ∈ st.visited then st
  else
    let st := { st with visited := p.1 :: st.visited }
    if !c.flags.useFilter ∧ p.1 ∈ c.env.dummyPts then st
    else if c.flags.useFilter ∧ ¬(pointHasLabel c.env p.1 c.flags.filterLabel = true) ∧
        (¬(c.env.useUniversalLabel = true) ∨
          ¬(pointHasLabel c.env p.1 c.env.universalLabel = true)) then st
    else
      let st := { st with cmps := st.cmps + 1 }
      let st := if bumpPerInsert then
          { st with stats := { st.stats with nCmps := st.stats.nCmps + 1 } }
        else st
      { st with retset := st.retset.insert ⟨p.1, p.2⟩ }

/-- The neighbour-insertion loop over a `(id, dist)` list. -/
def insertNbrList (c : SearchCtx) (bumpPerInsert : Bool) (st : LoopState)
    (pairs : List (NodeId × Dist)) : LoopState :=
  pairs.foldl (insertOneNbr c bumpPerInsert) st

/-- Processing of one cached frontier node
(src/src/pq_flash_index.cpp:2318-2395). -/
def processCachedOne (c : SearchCtx) (st : LoopState) (nid : NodeId) : LoopState :=
  let coords := c.env.coordCache nid
  let r : Dist × LoopState :=
    if c.flags.skipSearchReorder then
      let r := computeDists c st.distCtx [nid]
      (r.1.headD 0, { st with distCtx := r.2 })
    else if c.flags.deferredFetch then (0, st)
    else if !c.env.useDiskIndexPQ then
      (c.env.distCmp c.env.alignedDim c.alignedQuery coords, st)
    else if c.env.metric = .INNER_PRODUCT then (c.env.diskPQip c.queryFloat coords, st)
    else (c.env.diskPQl2 c.queryFloat coords, st)
  let nb : Neighbor := { id := nid, distance := r.1 }
  let st := { r.2 with fullRetset := r.2.fullRetset ++ [nb] }
  let nbrs := (c.env.nhoodCache nid).getD []
  let rd := computeDists c st.distCtx nbrs
  let st := { st with
    distCtx := rd.2
    stats := { st.stats with nCmps := st.stats.nCmps + nbrs.length } }
  insertNbrList c false st (nbrs.zip rd.1)

/-- Processing of one disk-read frontier node
(src/src/pq_flash_index.cpp:2410-2608).  Returns the updated state and the
accumulated `batched_node_ids` (extended instead of inserting when
`batch_recompute` is set). -/
def processFrontierOne (c : SearchCtx) (acc : LoopState × List NodeId)
    (nid : NodeId) : LoopState × List NodeId :=
  let st := acc.1
  let r : Dist × LoopState :=
    if c.flags.skipSearchReorder then
      let r := computeDists c st.distCtx [nid]
      (r.1.headD 0, { st with distCtx := r.2 })
    else if c.flags.deferredFetch then (0, st)
    else if c.flags.recompute ∧ c.flags.dedupNodeDis ∧ c.env.usePartition then
      -- `node_distances[node_id]` (std::map::operator[]): default-insert 0
      match assocLookup st.distCtx.nodeDistances nid with
      | some d => (d, st)
      | none =>
        (0, { st with distCtx :=
          { st.distCtx with nodeDistances := assocInsert st.distCtx.nodeDistances nid 0 } })
    else
      let coords := if c.env.usePartition then c.env.staleCoords nid else c.env.diskCoords nid
      let buf := resizeVec coords c.env.alignedDim 0
      if !c.env.useDiskIndexPQ then
        (c.env.distCmp c.env.alignedDim c.alignedQuery buf, st)
      else if c.env.metric = .INNER_PRODUCT then (c.env.diskPQip c.queryFloat buf, st)
      else (c.env.diskPQl2 c.queryFloat buf, st)
  let nb : Neighbor := { id := nid, distance := r.1 }
  let st := { r.2 with fullRetset := r.2.fullRetset ++ [nb] }
  let nbrs := if !c.env.usePartition then c.env.diskNbrs nid else c.env.partitionNbrs nid
  if !c.flags.batchRecompute then
    let pr := pruneNodeNbrs c st.visited st.aqPQ nbrs
    let st := { st with aqPQ := pr.2 }
    let rd := computeDists c st.distCtx pr.1
    let st := { st with
      distCtx := rd.2
      stats := { st.stats with nCmps := st.stats.nCmps + pr.1.length } }
    (insertNbrList c true st (pr.1.zip rd.1), acc.2)
  else (st, acc.2 ++ nbrs)

/-- End-of-hop processing of `batched_node_ids` when `batch_recompute`
(src/src/pq_flash_index.cpp:2611-2643). -/
def processBatched (c : SearchCtx) (st : LoopState) (batched : List NodeId) : LoopState :=
  let pr := pruneNodeNbrs c st.visited st.aqPQ batched
  let st := { st with aqPQ := pr.2 }
  let rd := computeDists c st.distCtx pr.1
  let st := { st with distCtx := rd.2 }
  insertNbrList c true st (pr.1.zip rd.1)

/-- One iteration of the main traversal loop
(src/src/pq_flash_index.cpp:2172-2647): select the beam, account the
sector reads of the uncached part (`num_ios`, `stats->n_4k`,
`stats->n_ios`, `stats->n_hops`), process cached nhoods, then frontier
nhoods, then the batched neighbours, and bump `hops`. -/
def searchIter (c : SearchCtx) (st : LoopState) : LoopState :=
  let pb := popBeam (fun id => (c.env.nhoodCache id).isSome) c.beamWidth st.retset
  let st := { st with retset := pb.2 }
  let cachedIds := pb.1.filter (fun id => (c.env.nhoodCache id).isSome)
  let frontierIds := pb.1.filter (fun id => (c.env.nhoodCache id).isNone)
  let st := { st with stats := { st.stats with nCacheHits := st.stats.nCacheHits + cachedIds.length } }
  let st :=
    if frontierIds.isEmpty then st
    else { st with
      numIos := st.numIos + frontierIds.length
      stats := { st.stats with
        nHops := st.stats.nHops + 1
        n4k := st.stats.n4k + frontierIds.length
        nIos := st.stats.nIos + frontierIds.length } }
  let st := cachedIds.foldl (processCachedOne c) st
  let fr := frontierIds.foldl (processFrontierOne c) (st, [])
  let st := if c.flags.batchRecompute then processBatched c fr.1 fr.2 else fr.1
  { st with hops := st.hops + 1 }

/-- The main traversal loop: `while (retset.has_unexpanded_node() &&
num_ios < io_limit)`.  `fuel` bounds the number of iterations (the C++
loop does not terminate for every input, e.g. `beam_width = 0`);
`none` means the fuel ran out. -/
def searchLoop (c : SearchCtx) (fuel : ℕ) (st : LoopState) : Option LoopState :=
  if st.retset.hasUnexpanded = true ∧ st.numIos < c.ioLimit then
    match fuel with
    | 0 => none
    | f + 1 => searchLoop c f (searchIter c st)
  else some st

/-- Query normalisation (src/src/pq_flash_index.cpp:1802-1840): returns
`aligned_query_T` (padded to `_aligned_dim`) and `query_norm`.  For
INNER_PRODUCT the last data dimension is zeroed and the first
`_data_dim - 1` are divided by the norm; for COSINE all `_data_dim`
are; for L2 the query is copied and `query_norm` stays 0. -/
def preprocessQuery (env : IndexEnv) (q : Vec) : Vec × ℚ :=
  if env.metric = .INNER_PRODUCT ∨ env.metric = .COSINE then
    let inherentDim := if env.metric = .COSINE then env.dataDim else env.dataDim - 1
    let qN := env.sqrtF (((List.range inherentDim).map (fun i => q.getD i 0 * q.getD i 0)).sum)
    ((List.range env.alignedDim).map
      (fun i => if i < inherentDim then q.getD i 0 / qN else 0), qN)
  else
    ((List.range env.alignedDim).map
      (fun i => if i < env.dataDim then q.getD i 0 else 0), 0)

/-- `query_norm` as computed by `cached_beam_search` for a given query. -/
def queryNormOf (env : IndexEnv) (q : Vec) : ℚ := (preprocessQuery env q).2

/-- Errors thrown by (or undefined behaviour surfaced from)
`cached_beam_search`. -/
inductive SearchError
  | beamWidthExceeded
  | filterMedoidNotFound
  | fetchFailed
  | reorderDataMissing
  /-- Reading `full_retset[i]` for `i ≥ full_retset.size()` in the final
  copy loop, or overwriting past its end in the deferred rerank: undefined
  behaviour in the C++. -/
  | oobAccess
  | outOfFuel
deriving DecidableEq, Repr

/-- Medoid selection (src/src/pq_flash_index.cpp:2109-2146): best of the
global centroids by exact float distance for unfiltered search, or the
best PQ-scored medoid registered for the filter label (throwing when the
label has none).  `best_medoid` starts at 0 and `best_dist` at FLT_MAX. -/
def selectMedoid (c : SearchCtx) (dctx : DistCtx) :
    Except SearchError (NodeId × DistCtx) :=
  if !c.flags.useFilter then
    let r := c.env.medoids.enum.foldl
      (fun (acc : NodeId × ℚ) p =>
        let d := c.env.distCmp c.env.alignedDim c.queryFloat (c.env.centroidData p.1)
        if d < acc.2 then (p.2, d) else acc)
      (0, fltMax)
    .ok (r.1, dctx)
  else
    match (c.env.filterToMedoids.find? (fun p => p.1 = c.flags.filterLabel)) with
    | none => .error .filterMedoidNotFound
    | some p =>
      let r := p.2.foldl
        (fun (acc : NodeId × ℚ × DistCtx) m =>
          let rd := computeDists c acc.2.2 [m]
          let d := rd.1.headD 0
          if d < acc.2.1 then (m, d, rd.2) else (acc.1, acc.2.1, rd.2))
        (0, fltMax, dctx)
      .ok (r.1, r.2.2)

/-- The result of a completed `cached_beam_search`: the final contents of
the caller's `indices` and `distances` buffers, the stats sink, and (as
observables for specification) the final `full_retset`, the final
`num_ios`, whether the frontier still had unexpanded nodes, and whether
the deferred-fetch early return was taken. -/
structure SearchResult where
  indices : List NodeId
  distances : List Dist
  stats : QueryStats
  fullRetset : List Neighbor
  numIos : ℕ
  hasUnexpEnd : Bool
  earlyReturn : Bool
deriving DecidableEq, Repr

/-- The dummy remap of the final copy
(src/src/pq_flash_index.cpp:2856-2861). -/
def remapId (env : IndexEnv) (nb : Neighbor) : NodeId :=
  if nb.id ∈ env.dummyPts then env.dummyToReal nb.id else nb.id

/-- The distance written to the output buffer
(src/src/pq_flash_index.cpp:2863-2874): for INNER_PRODUCT the sign is
flipped and, when `_max_base_norm != 0`, rescaled by
`_max_base_norm * query_norm`. -/
def outDistOf (env : IndexEnv) (queryNorm : ℚ) (nb : Neighbor) : Dist :=
  if env.metric = .INNER_PRODUCT then
    if env.maxBaseNorm ≠ 0 then -nb.distance * (env.maxBaseNorm * queryNorm)
    else -nb.distance
  else nb.distance

/-- The deferred-fetch rerank (src/src/pq_flash_index.cpp:2653-2751):
`none` signals the early return on an empty `full_retset`; otherwise the
distances of the first `real_embeddings.size()` entries are overwritten
with exact distances against the fetched embeddings (a response longer
than `full_retset` would write out of bounds). -/
def deferredStage (c : SearchCtx) (full : List Neighbor) :
    Except SearchError (Option (List Neighbor)) :=
  if c.flags.deferredFetch then
    let nodeIds := full.map (fun nb => nb.id)
    if nodeIds.isEmpty then .ok none
    else
      match c.env.fetch nodeIds with
      | none => .error .fetchFailed
      | some embs =>
        let embs := embs.map (preprocessEmb c.env)
        if full.length < embs.length then .error .oobAccess
        else
          .ok (some (full.enum.map (fun p =>
            match embs.get? p.1 with
            | some e => { p.2 with distance := embDist c e }
            | none => p.2)))
  else .ok (some full)

/-- The reorder pass (src/src/pq_flash_index.cpp:2803-2851): truncate to
`k · FULL_PRECISION_REORDER_MULTIPLIER`, read the reorder sectors
(accounted in `stats->n_4k` / `stats->n_ios`), recompute distances over
`_data_dim` from the reorder region, and re-sort. -/
def reorderStage (c : SearchCtx) (kSearch : ℕ) (full1 : List Neighbor)
    (stats : QueryStats) : Except SearchError (List Neighbor × QueryStats) :=
  if c.flags.useReorderData then
    if !c.env.reorderDataExists then .error .reorderDataMissing
    else
      let full2 := if full1.length > kSearch * FULL_PRECISION_REORDER_MULTIPLIER then
          full1.take (kSearch * FULL_PRECISION_REORDER_MULTIPLIER)
        else full1
      let stats := { stats with
        n4k := stats.n4k + full2.length
        nIos := stats.nIos + full2.length }
      let full3 := full2.map (fun nb =>
        { nb with distance := c.env.distCmp c.env.dataDim c.alignedQuery (c.env.reorderCoords nb.id) })
      .ok (List.insertionSort nbrLe full3, stats)
  else .ok (full1, stats)

/-- Everything after the traversal loop
(src/src/pq_flash_index.cpp:2653-2876): deferred rerank (throwing on fetch
failure, returning early when `full_retset` is empty), `std::sort` of
`full_retset`, optional reorder pass, and the final top-`k_search` copy
(remapping dummy ids, negating and rescaling inner-product distances).
The copy reads `full_retset[i]` for every `i < k_search` unchecked. -/
def searchFinish (c : SearchCtx) (queryNorm : ℚ) (kSearch : ℕ)
    (indices0 : List NodeId) (distances0 : List Dist) (st : LoopState) :
    Except SearchError SearchResult :=
  match deferredStage c st.fullRetset with
  | .error e => .error e
  | .ok none =>
    .ok { indices := indices0, distances := distances0, stats := st.stats,
          fullRetset := st.fullRetset, numIos := st.numIos,
          hasUnexpEnd := st.retset.hasUnexpanded, earlyReturn := true }
  | .ok (some full0) =>
    let full1 := List.insertionSort nbrLe full0
    match reorderStage c kSearch full1 st.stats with
    | .error e => .error e
    | .ok (full, stats) =>
      if full.length < kSearch then .error .oobAccess
      else
        let top := full.take kSearch
        let outIds := top.map (remapId c.env)
        let outDs := top.map (outDistOf c.env queryNorm)
        .ok { indices := outIds ++ indices0.drop kSearch
              distances := outDs ++ distances0.drop kSearch
              stats := stats
              fullRetset := full
              numIos := st.numIos
              hasUnexpEnd := st.retset.hasUnexpanded
              earlyReturn := false }

/-- The per-call context of a `cached_beam_search` invocation:
`prune_ratio = 1 - prune_ratio` flip and query preprocessing
(src/src/pq_flash_index.cpp:1783, 1802-1840). -/
def mkSearchCtx (env : IndexEnv) (flags : SearchFlags) (query1 : Vec)
    (beamWidth ioLimit : ℕ) : SearchCtx :=
  { env := env, flags := flags, pruneKeep := 1 - flags.pruneFracIn,
    alignedQuery := (preprocessQuery env query1).1,
    queryFloat := (preprocessQuery env query1).1,
    beamWidth := beamWidth, ioLimit := ioLimit }

/-- Frontier seeding (src/src/pq_flash_index.cpp:2099-2154): reserve the
`retset` at `l_search`, select the medoid, compute its distance via
`compute_dists`, insert it and mark it visited. -/
def initState (c : SearchCtx) (lSearch : ℕ) (stats0 : QueryStats) :
    Except SearchError LoopState :=
  match selectMedoid c {} with
  | .error e => .error e
  | .ok (best, dctx) =>
    let rd := computeDists c dctx [best]
    .ok
      { retset := NeighborPriorityQueue.insert { capacity := lSearch, data := [] }
          { id := best, distance := rd.1.headD 0 }
        visited := [best]
        fullRetset := []
        distCtx := rd.2
        aqPQ := []
        numIos := 0
        hops := 0
        cmps := 0
        stats := stats0 }

/-- `PQFlashIndex<float, uint32_t>::cached_beam_search`
(src/src/pq_flash_index.cpp:1772-2896).  `indices0` and `distances0` are
the caller's pre-allocated output buffers; `fuel` bounds the traversal
iterations (the C++ loop can diverge); `stats0` is the incoming stats
sink. -/
def cachedBeamSearch (env : IndexEnv) (fuel : ℕ) (query1 : Vec)
    (kSearch lSearch : ℕ) (indices0 : List NodeId) (distances0 : List Dist)
    (beamWidth : ℕ) (flags : SearchFlags) (ioLimit : ℕ) (stats0 : QueryStats) :
    Except SearchError SearchResult :=
  let numSectorPerNodes := divRoundUp env.maxNodeLen SECTOR_LEN
  if beamWidth > numSectorPerNodes * env.maxNSectorReads then .error .beamWidthExceeded
  else
    let c := mkSearchCtx env flags query1 beamWidth ioLimit
    match initState c lSearch stats0 with
    | .error e => .error e
    | .ok st0 =>
      match searchLoop c fuel st0 with
      | none => .error .outOfFuel
      | some st => searchFinish c (queryNormOf env query1) kSearch indices0 distances0 st

/-- `std::numeric_limits<uint32_t>::max()`, the default `io_limit`. -/
def UINT32_MAX : ℕ := 4294967295

/-- The flag values of the `cached_beam_search` overload without filter /
io-limit arguments (header defaults: everything off, `prune_ratio = 0`). -/
def defaultFlags : SearchFlags :=
  { useFilter := false, filterLabel := 0, useReorderData := false,
    deferredFetch := false, skipSearchReorder := false, recompute := false,
    dedupNodeDis := false, pruneFracIn := 0, batchRecompute := false,
    globalPruning := false }

/-- `std::vector<uint64_t>::resize(n)`: truncate or zero-pad. -/
def resizeNatList (v : List ℕ) (n : ℕ) : List ℕ :=
  if n ≤ v.length then v.take n else v ++ List.replicate (n - v.length) 0

/-- The `res_count` scan of `range_search`
(src/src/pq_flash_index.cpp:2921-2930): the index of the first distance
above `range` (the whole length if none), leaving the previous value when
the buffer is empty. -/
def rangeResCount (ds : List Dist) (range : ℚ) (prev : ℕ) : ℕ :=
  if ds.isEmpty then prev else ds.findIdx (fun d => decide (d > range))

/-- The outcome of `range_search`: the resized `indices` and `distances`
vectors, the returned `res_count`, the stats sink, plus (as observables for
specification) the buffers of the final iteration before the resize and
the `(l_search, res_count)` pair of every iteration. -/
structure RangeResult where
  indices : List ℕ
  distances : List Dist
  resCount : ℕ
  stats : QueryStats
  lastInds : List ℕ
  lastDs : List Dist
  trace : List (ℕ × ℕ)
deriving DecidableEq, Repr

/-- The `while (!stop_flag)` loop of `range_search`
(src/src/pq_flash_index.cpp:2912-2936).  Each iteration resizes the
buffers, derives `cur_bw`, fills `distances` with FLT_MAX, runs
`cached_beam_search(query, l, l, ..., cur_bw, false, stats)` (header
defaults: no filter, `io_limit = UINT32_MAX`, every feature flag off),
scans `res_count`, and stops when `res_count < (uint32_t)(l/2.0)` or the
doubled `l` exceeds `max_l_search`. -/
def rangeSearchGo (env : IndexEnv) (fuelInner : ℕ) (query1 : Vec) (range : ℚ)
    (minBw maxL : ℕ) (fuel : ℕ) (l : ℕ) (inds0 : List ℕ) (_dists0 : List Dist)
    (rcPrev : ℕ) (stats : QueryStats) (trace : List (ℕ × ℕ)) :
    Except SearchError RangeResult :=
  match fuel with
  | 0 => .error .outOfFuel
  | fuel + 1 =>
    let inds := resizeNatList inds0 l
    let bw0 := if minBw > l / 5 then minBw else l / 5
    let curBw := if bw0 > 100 then 100 else bw0
    let dists := List.replicate l fltMax
    match cachedBeamSearch env fuelInner query1 l l inds dists curBw defaultFlags
        UINT32_MAX stats with
    | .error e => .error e
    | .ok res =>
      let rc := rangeResCount (res.distances.take l) range rcPrev
      let trace := trace ++ [(l, rc)]
      if rc < l / 2 ∨ l * 2 > maxL then
        .ok { indices := res.indices.take rc, distances := res.distances.take rc,
              resCount := rc, stats := res.stats,
              lastInds := res.indices, lastDs := res.distances, trace := trace }
      else
        rangeSearchGo env fuelInner query1 range minBw maxL fuel (l * 2)
          res.indices res.distances rc res.stats trace

/-- `PQFlashIndex<float, uint32_t>::range_search`
(src/src/pq_flash_index.cpp:2901-2940).
(`(uint32_t)min_l_search` truncation is not modelled; callers are assumed
to pass values below 2³².) -/
def rangeSearch (env : IndexEnv) (fuelOuter fuelInner : ℕ) (query1 : Vec)
    (range : ℚ) (minL maxL : ℕ) (inds0 : List ℕ) (dists0 : List Dist)
    (minBw : ℕ) (stats0 : QueryStats) : Except SearchError RangeResult :=
  rangeSearchGo env fuelInner query1 range minBw maxL fuelOuter minL inds0 dists0 0 stats0 []

/-- Insert into an insertion-ordered duplicate-free list (the model of
`tsl::robin_set`; only membership and size are relied upon, the C++
iteration order is unspecified). -/
def setInsert (s : List ℕ) (x : ℕ) : List ℕ := if x ∈ s then s else s ++ [x]

/-- Medoid seeding of `cache_bfs_levels`
(src/src/pq_flash_index.cpp:496-499): insert medoids while
`cur_level.size() < num`. -/
def bfsSeedMedoids (num : ℕ) : List NodeId → List ℕ → List ℕ
  | [], cur => cur
  | m :: rest, cur =>
    if cur.length < num then bfsSeedMedoids num rest (setInsert cur m) else cur

/-- Inner filter-medoid seeding loop (src/src/pq_flash_index.cpp:505-510):
insert each medoid of one label, breaking when the level reaches `num`. -/
def bfsSeedFilterInner (num : ℕ) : List NodeId → List ℕ → List ℕ
  | [], cur => cur
  | y :: rest, cur =>
    let cur := setInsert cur y
    if cur.length = num then cur else bfsSeedFilterInner num rest cur

/-- Outer filter-medoid seeding loop (src/src/pq_flash_index.cpp:503-513). -/
def bfsSeedFilter (num : ℕ) : List (Label × List NodeId) → List ℕ → List ℕ
  | [], cur => cur
  | x :: rest, cur =>
    let cur := bfsSeedFilterInner num x.2 cur
    if cur.length = num then cur else bfsSeedFilter num rest cur

/-- Neighbour scan of one expanded node
(src/src/pq_flash_index.cpp:579-589): insert unseen neighbours into
`cur_level`, setting `finish_flag` as soon as
`cur_level.size() + node_set.size() >= num`. -/
def bfsExpandNbrs (num : ℕ) (nodeSet : List ℕ) :
    List NodeId → List ℕ → Bool → List ℕ × Bool
  | [], cur, fin => (cur, fin)
  | nbr :: rest, cur, fin =>
    if fin then (cur, fin)
    else
      let cur := if nbr ∈ nodeSet then cur else setInsert cur nbr
      let fin := if num ≤ cur.length + nodeSet.length then true else fin
      bfsExpandNbrs num nodeSet rest cur fin

/-- Expansion of one level's nodes (src/src/pq_flash_index.cpp:547-593;
the 1024-node read blocks have no observable effect beyond sequential
processing and are flattened).  Nodes whose read failed are skipped. -/
def bfsExpandNodes (env : IndexEnv) (num : ℕ) (nodeSet : List ℕ) :
    List NodeId → List ℕ → Bool → List ℕ × Bool
  | [], cur, fin => (cur, fin)
  | id :: rest, cur, fin =>
    if fin then (cur, fin)
    else if env.readOk id then
      let r := bfsExpandNbrs num nodeSet (env.diskNbrs id) cur fin
      bfsExpandNodes env num nodeSet rest r.1 r.2
    else bfsExpandNodes env num nodeSet rest cur fin

/-- The level loop of `cache_bfs_levels`
(src/src/pq_flash_index.cpp:518-599), returning `(node_set, cur_level)` at
exit.  `fuel` bounds the number of levels; on exhaustion the current state
is returned (every reachable state already satisfies the size bound). -/
def bfsLevels (env : IndexEnv) (num : ℕ) :
    ℕ → List ℕ → List ℕ → List ℕ × List ℕ
  | 0, nodeSet, cur => (nodeSet, cur)
  | fuel + 1, nodeSet, cur =>
    if nodeSet.length + cur.length < num ∧ cur.length ≠ 0 then
      let toExpand := cur.filter (fun id => !(decide (id ∈ nodeSet)))
      let nodeSet := toExpand.foldl setInsert nodeSet
      let sorted := List.insertionSort (fun a b => a ≤ b) toExpand
      let r := bfsExpandNodes env num nodeSet sorted [] false
      bfsLevels env num fuel nodeSet r.1
    else (nodeSet, cur)

/-- The 10%-of-N cache cap of `cache_bfs_levels`
(src/src/pq_flash_index.cpp:483-489): `round(num_points * 0.1)`, with an
oversized request reduced to that value, or to 1 when it rounds to 0.
(`std::round` is half-away-from-zero; for the nonnegative arguments here
this agrees with Mathlib `round`, and the model evaluates the product
exactly in ℚ.) -/
def bfsCap (numPoints numNodesToCache : ℕ) : ℕ :=
  let tenp := Int.toNat (round ((numPoints : ℚ) * (1 / 10)))
  if numNodesToCache > tenp then (if tenp = 0 then 1 else tenp)
  else numNodesToCache

/-- `PQFlashIndex<float, uint32_t>::cache_bfs_levels`
(src/src/pq_flash_index.cpp:473-614) with `shuffle = false`: returns the
collected `node_list` (`node_set` followed by the final `cur_level`). -/
def cacheBfsLevels (env : IndexEnv) (fuel : ℕ) (numNodesToCache : ℕ) : List NodeId :=
  let num := bfsCap env.numPoints numNodesToCache
  let cur := bfsSeedMedoids num env.medoids []
  let cur := if env.filterToMedoids.length > 0 ∧ cur.length < num then
      bfsSeedFilter num env.filterToMedoids cur
    else cur
  let r := bfsLevels env num fuel [] cur
  r.1 ++ r.2

/-! Concrete index states used to evaluate the search on small inputs:
a 12-point L2 index whose on-disk graph is complete, with medoid 0,
per-node PQ distance `n` and exact distance equal to the node's single
coordinate `n`; nothing is cached, no partition mode, no disk-PQ, and the
embedding server always fails. -/

def E1 : IndexEnv :=
  { metric := .L2, dataDim := 1, alignedDim := 1, maxNodeLen := 100,
    maxNSectorReads := 128, numPoints := 12, medoids := [0],
    centroidData := fun _ => [0],
    distCmp := fun _ _ v => v.headD 0,
    sqrtF := fun x => x,
    pqDist := fun n => (n : ℚ),
    nhoodCache := fun _ => none,
    coordCache := fun _ => [],
    diskCoords := fun n => [(n : ℚ)],
    diskNbrs := fun _ => [0, 1, 2, 3, 4, 5, 6, 7, 8, 9, 10, 11],
    usePartition := false, partitionNbrs := fun _ => [],
    staleCoords := fun _ => [],
    useDiskIndexPQ := false, diskPQip := fun _ _ => 0, diskPQl2 := fun _ _ => 0,
    dummyPts := [], dummyToReal := fun n => n,
    ptsToLabels := fun _ => [], useUniversalLabel := false, universalLabel := 0,
    filterToMedoids := [], maxBaseNorm := 0,
    reorderDataExists := false, reorderCoords := fun _ => [],
    readOk := fun _ => true,
    fetch := fun _ => none }

/-- Variant of `E1` where the medoid has exactly two neighbours, both
uncached (one beam iteration then issues two sector reads). -/
def E3 : IndexEnv := { E1 with diskNbrs := fun n => if n = 0 then [1, 2] else [] }

/-- Variant of `E1` for filtered search: node 1 is a dummy point whose
real id is 0, every point carries label 7, and label 7 has medoid 0. -/
def EC1 : IndexEnv :=
  { E1 with
    diskNbrs := fun n => if n = 0 then [1] else []
    dummyPts := [1]
    dummyToReal := fun n => if n = 1 then 0 else n
    ptsToLabels := fun _ => [7]
    filterToMedoids := [(7, [0])] }

/-- Flags selecting the filtered search with label 7. -/
def FC1 : SearchFlags := { defaultFlags with useFilter := true, filterLabel := 7 }

/-- Two-point INNER_PRODUCT variant of `E1` (`max_base_norm = 1`). -/
def EIP : IndexEnv :=
  { E1 with
    metric := Metric.INNER_PRODUCT
    dataDim := 2
    alignedDim := 2
    diskNbrs := fun n => if n = 0 then [1] else []
    diskCoords := fun n => [(n : ℚ), 0]
    maxBaseNorm := 1 }

/-- `EIP` with `max_base_norm = 0` (the norm file was absent at load). -/
def EIP0 : IndexEnv := { EIP with maxBaseNorm := 0 }

/-- Variant of `E1` with only 4 points (so 10% of `N` rounds to 0). -/
def E8 : IndexEnv := { E1 with numPoints := 4, diskNbrs := fun _ => [0, 1, 2, 3] }

/-- Flags with the remote-recompute path enabled. -/
def F5 : SearchFlags := { defaultFlags with recompute := true }

/-- Flags with the deferred-fetch path enabled. -/
def F10 : SearchFlags := { defaultFlags with deferredFetch := true }

/-- A concrete `SearchCtx` over `E1` with the remote-recompute path on
(the embedding server of `E1` always fails). -/
def C5ctx : SearchCtx :=
  { env := E1, flags := F5, pruneKeep := 1, alignedQuery := [0],
    queryFloat := [0], beamWidth := 1, ioLimit := 0 }

/-- A concrete `SearchCtx` over `E1` with deferred fetch on. -/
def C10ctx : SearchCtx :=
  { env := E1, flags := F10, pruneKeep := 1, alignedQuery := [0],
    queryFloat := [0], beamWidth := 1, ioLimit := 0 }

/-- A loop state whose traversal ended with an empty `full_retset`. -/
def st10 : LoopState :=
  { retset := { capacity := 1, data := [] }, visited := [0], fullRetset := [],
    distCtx := {}, aqPQ := [], numIos := 0, hops := 0, cmps := 0, stats := {} }

/-- The result of the plain `k = 5` search on `E1`. -/
def res1 : SearchResult :=
  { indices := [0, 1, 2, 3, 4], distances := [0, 1, 2, 3, 4],
    stats := { nHops := 2, n4k := 5, nIos := 5, nCmps := 71, nCacheHits := 0 },
    fullRetset := [{ id := 0, distance := 0 }, { id := 1, distance := 1 },
                   { id := 2, distance := 2 }, { id := 3, distance := 3 },
                   { id := 4, distance := 4 }],
    numIos := 5, hasUnexpEnd := false, earlyReturn := false }

/-- The result of the `k = 2` INNER_PRODUCT search on `EIP`. -/
def resIP : SearchResult :=
  { indices := [0, 1], distances := [0, -1],
    stats := { nHops := 2, n4k := 2, nIos := 2, nCmps := 2, nCacheHits := 0 },
    fullRetset := [{ id := 0, distance := 0 }, { id := 1, distance := 1 }],
    numIos := 2, hasUnexpEnd := false, earlyReturn := false }

/-- The result of the `io_limit = 2`, `beam_width = 2` search on `E3`. -/
def res3 : SearchResult :=
  { indices := [0], distances := [0],
    stats := { nHops := 2, n4k := 3, nIos := 3, nCmps := 4, nCacheHits := 0 },
    fullRetset := [{ id := 0, distance := 0 }, { id := 1, distance := 1 },
                   { id := 2, distance := 2 }],
    numIos := 3, hasUnexpEnd := false, earlyReturn := false }

/-- The result of `range_search` on `E1` with `range = 3/2`, `min_l = 5`,
`max_l = 10`. -/
def rres7 : RangeResult :=
  { indices := [0, 1], distances := [0, 1], resCount := 2,
    stats := { nHops := 11, n4k := 15, nIos := 15, nCmps := 202, nCacheHits := 0 },
    lastInds := [0, 1, 2, 3, 4, 5, 6, 7, 8, 9],
    lastDs := [0, 1, 2, 3, 4, 5, 6, 7, 8, 9],
    trace := [(5, 2), (10, 2)] }

/-- The two I/O counters of a loop state (`num_ios`, `stats->n_ios`). -/
def iosOf (st : LoopState) : ℕ × ℕ := (st.numIos, st.stats.nIos)

/-- The ids held by the frontier queue. -/
def retIds (q : NeighborPriorityQueue) : List NodeId := q.data.map (fun e => e.id)

/-- The ids held by `full_retset`. -/
def fullIds (st : LoopState) : List NodeId := st.fullRetset.map (fun nb => nb.id)

/-- The traversal invariant: frontier ids are distinct and visited,
`full_retset` ids are distinct and visited, and every frontier entry
whose id already sits in `full_retset` is expanded. -/
def Inv (st : LoopState) : Prop :=
  (retIds st.retset).Nodup ∧
  (∀ e ∈ st.retset.data, e.id ∈ st.visited) ∧
  (fullIds st).Nodup ∧
  (∀ nb ∈ st.fullRetset, nb.id ∈ st.visited) ∧
  (∀ nb ∈ st.fullRetset, ∀ e ∈ st.retset.data, e.id = nb.id → e.expanded = true)

/-- The ids popped this beam but not yet pushed to `full_retset`:
distinct, visited, absent from `full_retset`, and with every matching
frontier entry already marked expanded. -/
def Pending (st : LoopState) (P : List NodeId) : Prop :=
  P.Nodup ∧ ∀ p ∈ P, p ∈ st.visited ∧ p ∉ fullIds st ∧
    (∀ e ∈ st.retset.data, e.id = p → e.expanded = true)

/-- The stopping test of one `range_search` iteration
(src/src/pq_flash_index.cpp:2931-2935): `res_count < (uint32_t)(l_search/2.0)`
(the cast floors, so this is `res_count < l/2` in integer division) or the
doubled `l_search` exceeding `max_l_search`. -/
def stopCond (maxL l rc : ℕ) : Bool := decide (rc < l / 2) || decide (l * 2 > maxL)

/-- Checks that an `(l_search, res_count)` iteration trace starts at `l`,
doubles `l_search` each iteration, fails the stop test at every non-final
entry and passes it at the final one; returns that final entry. -/
def traceFinal (maxL : ℕ) : ℕ → List (ℕ × ℕ) → Option (ℕ × ℕ)
  | _, [] => none
  | l, [e] => if e.1 = l ∧ stopCond maxL e.1 e.2 = true then some e else none
  | l, e :: e2 :: rest =>
    if e.1 = l ∧ ¬(stopCond maxL e.1 e.2 = true) then traceFinal maxL (l * 2) (e2 :: rest)
    else none

/-! ### Supporting lemmas -/

theorem deferredStage_error_shape {c : SearchCtx} {full : List Neighbor}
    {e : SearchError} (h : deferredStage c full = .error e) :
    e = .fetchFailed ∨ e = .oobAccess := by
  unfold deferredStage at h
  split at h
  · try dsimp only at h
    split at h
    · simp at h
    · split at h
      · simp at h
        exact Or.inl h.symm
      · try dsimp only at h
        split at h
        · simp at h
          exact Or.inr h.symm
        · simp at h
  · simp at h

theorem reorderStage_error_shape {c : SearchCtx} {k : ℕ} {full : List Neighbor}
    {s : QueryStats} {e : SearchError} (h : reorderStage c k full s = .error e) :
    e = .reorderDataMissing := by
  unfold reorderStage at h
  split at h
  · split at h
    · simp at h
      exact h.symm
    · simp at h
  · simp at h

theorem searchFinish_error_shape {c : SearchCtx} {qn : ℚ} {k : ℕ}
    {i0 : List NodeId} {d0 : List Dist} {st : LoopState} {e : SearchError}
    (h : searchFinish c qn k i0 d0 st = .error e) :
    e = .fetchFailed ∨ e = .oobAccess ∨ e = .reorderDataMissing := by
  unfold searchFinish at h
  cases hd : deferredStage c st.fullRetset with
  | error e' =>
    rw [hd] at h
    simp at h
    rcases deferredStage_error_shape hd with h1 | h1 <;> simp [h.symm, h1]
  | ok o =>
    rw [hd] at h
    cases o with
    | none => simp at h
    | some full0 =>
      simp only at h
      cases hr : reorderStage c k (List.insertionSort nbrLe full0) st.stats with
      | error e' =>
        rw [hr] at h
        simp at h
        simp [h.symm, reorderStage_error_shape hr]
      | ok p =>
        rw [hr] at h
        simp only at h
        split at h
        · simp at h
          simp [h.symm]
        · simp at h

theorem selectMedoid_error_shape {c : SearchCtx} {dctx : DistCtx}
    {e : SearchError} (h : selectMedoid c dctx = .error e) :
    e = .filterMedoidNotFound := by
  unfold selectMedoid at h
  split at h
  · simp at h
  · split at h
    · simp at h
      exact h.symm
    · simp at h

theorem initState_error_shape {c : SearchCtx} {l : ℕ} {s0 : QueryStats}
    {e : SearchError} (h : initState c l s0 = .error e) :
    e = .filterMedoidNotFound := by
  unfold initState at h
  split at h
  · rename_i e' he
    simp at h
    exact h ▸ selectMedoid_error_shape he
  · simp at h

/-! ### Claim theorems -/

/-- C4: `cached_beam_search` throws (before issuing any read or touching
the frontier: the check is the first statement of the function) exactly
when the requested beam width exceeds
`ceil(max_node_len / SECTOR_LEN) * MAX_N_SECTOR_READS`; otherwise the
search proceeds (it can never produce this error later). -/
theorem beam_width_check_iff (env : IndexEnv) (fuel : ℕ) (q : Vec)
    (k l : ℕ) (i0 : List NodeId) (d0 : List Dist) (bw : ℕ)
    (fl : SearchFlags) (io : ℕ) (s0 : QueryStats) :
    cachedBeamSearch env fuel q k l i0 d0 bw fl io s0 = .error .beamWidthExceeded ↔
      divRoundUp env.maxNodeLen SECTOR_LEN * env.maxNSectorReads < bw := by
  constructor
  · intro h
    by_contra hbw
    unfold cachedBeamSearch at h
    rw [if_neg (by exact fun hc => hbw hc)] at h
    try dsimp only at h
    split at h
    · rename_i e he
      have := initState_error_shape he
      simp [this] at h
    · try dsimp only at h
      split at h
      · simp at h
      · rcases searchFinish_error_shape h with h1 | h1 | h1 <;> simp at h1
  · intro h
    unfold cachedBeamSearch
    rw [if_pos h]

/-- C9: the final top-k copy indexes `full_retset[i]` for every
`i < k_search` without a size check, so `full_retset.size() >= k_search`
at loop exit is an unstated precondition: on the concrete 12-point index
`E1`, the same `k = 1` query that succeeds with an unlimited I/O budget
reads past the end of the (empty) `full_retset` when `io_limit = 0`
(surfaced as `oobAccess`, undefined behaviour in the C++). -/
theorem topk_copy_oob_read :
    cachedBeamSearch E1 10 [0] 1 5 [0] [0] 4 defaultFlags 0 {} = .error .oobAccess ∧
    (cachedBeamSearch E1 100 [0] 1 5 [0] [0] 4 defaultFlags UINT32_MAX {}).map
      (fun r => r.indices) = .ok [0] := by
  constructor
  · decide
  · decide

/-- C10: when deferred fetch is enabled and the traversal ends with an
empty `full_retset`, the post-loop stage returns early (before the sort,
the rerank and the top-k copy) with the caller's `indices` and
`distances` buffers exactly as they were passed in. -/
theorem deferred_empty_early_return (c : SearchCtx) (qn : ℚ) (k : ℕ)
    (i0 : List NodeId) (d0 : List Dist) (st : LoopState)
    (hdef : c.flags.deferredFetch = true) (hempty : st.fullRetset = []) :
    searchFinish c qn k i0 d0 st =
      .ok { indices := i0, distances := d0, stats := st.stats,
            fullRetset := st.fullRetset, numIos := st.numIos,
            hasUnexpEnd := st.retset.hasUnexpanded, earlyReturn := true } := by
  unfold searchFinish deferredStage
  rw [hdef, hempty]
  simp

theorem deferred_empty_early_return_witness :
    searchFinish C10ctx 0 3 [7, 8, 9] [5, 5, 5] st10 =
      .ok { indices := [7, 8, 9], distances := [5, 5, 5], stats := st10.stats,
            fullRetset := st10.fullRetset, numIos := st10.numIos,
            hasUnexpEnd := st10.retset.hasUnexpanded, earlyReturn := true } :=
  deferred_empty_early_return C10ctx 0 3 [7, 8, 9] [5, 5, 5] st10 (by decide) (by decide)

/-- C5: on an embedding-fetch failure (any send/recv/timeout/parse/size
failure makes `fetch_embeddings_http` return `false`, modelled as a `none`
oracle answer) the neighbour-expansion path (`compute_dists`) falls back
to PQ-approximate distances for all the requested ids and the search
continues, while the deferred-rerank path aborts the whole query with a
fatal `fetchFailed` error. -/
theorem fetch_failure_handling :
    (∀ (c : SearchCtx) (dctx : DistCtx) (ids : List NodeId),
      c.flags.recompute = true →
      ¬(c.flags.dedupNodeDis = true ∧ fetchCandidates c.flags.dedupNodeDis dctx ids = []) →
      c.env.fetch (fetchCandidates c.flags.dedupNodeDis dctx ids) = none →
      (computeDists c dctx ids).1 = ids.map c.env.pqDist) ∧
    (∀ (c : SearchCtx) (qn : ℚ) (k : ℕ) (i0 : List NodeId) (d0 : List Dist)
      (st : LoopState),
      c.flags.deferredFetch = true → st.fullRetset ≠ [] →
      c.env.fetch (st.fullRetset.map (fun nb => nb.id)) = none →
      searchFinish c qn k i0 d0 st = .error .fetchFailed) := by
  constructor
  · intro c dctx ids hrec hne hfetch
    unfold computeDists
    rw [hrec]
    simp only [Bool.not_true, Bool.false_eq_true, if_false]
    rw [if_neg (by simpa using hne), hfetch]
  · intro c qn k i0 d0 st hdef hne hfetch
    unfold searchFinish deferredStage
    rw [hdef]
    simp only [if_true]
    rw [if_neg (by simpa using hne), hfetch]

theorem fetch_failure_handling_witness :
    (computeDists C5ctx {} [0, 1]).1 = [0, 1].map C5ctx.env.pqDist ∧
    searchFinish C10ctx 0 1 [9] [9] { st10 with fullRetset := [{ id := 0, distance := 0 }] } =
      .error .fetchFailed := by
  constructor
  · exact fetch_failure_handling.1 C5ctx {} [0, 1] (by decide) (by decide) (by decide)
  · exact fetch_failure_handling.2 C10ctx 0 1 [9] [9] _ (by decide) (by decide) (by decide)

/-! ### Counterexample runs -/

/-- C1 counterexample: on the filtered index `EC1` (node 1 a dummy of
node 0, both carrying the filter label), the `k = 2` output after the
dummy remap is `[0, 0]` — the ids written to the output buffer do contain
a duplicate. -/
theorem dummy_remap_duplicates_output :
    (cachedBeamSearch EC1 100 [0] 2 2 [0, 0] [0, 0] 2 FC1 UINT32_MAX {}).map
      (fun r => r.indices) = .ok [0, 0] ∧ ¬ ([0, 0] : List ℕ).Nodup := by
  constructor
  · decide
  · decide

/-- C2 counterexample: on the INNER_PRODUCT index `EIP` the written
distances are `[0, -1]`, which is not non-decreasing (they are the negated
and rescaled sorted distances, hence non-increasing). -/
theorem inner_product_distances_decreasing :
    (cachedBeamSearch EIP 100 [1] 2 2 [0, 0] [0, 0] 2 defaultFlags UINT32_MAX {}).map
      (fun r => r.distances) = .ok [0, -1] ∧
    ¬ List.Sorted (· ≤ ·) [(0 : ℚ), -1] := by
  constructor
  · decide
  · decide

/-- C3 counterexample: on `E3` with `io_limit = 2` and `beam_width = 2`
the search returns normally with `stats.n_ios = 3 > io_limit` (the second
iteration issues two reads after only the first was budgeted). -/
theorem n_ios_exceeds_io_limit :
    (cachedBeamSearch E3 100 [0] 1 4 [0] [0] 2 defaultFlags 2 {}).map
      (fun r => r.stats.nIos) = .ok 3 ∧ ¬ (3 ≤ 2) := by
  constructor
  · decide
  · decide

/-- C6 counterexample: on `EIP0` (`metric = INNER_PRODUCT` but
`max_base_norm = 0`, as happens when the norm file is absent at load) the
second output distance is `-1`, not the claimed
`-full_retset[1].distance * max_base_norm * ‖q‖ = 0`: the rescaling is
skipped when `_max_base_norm == 0`. -/
theorem inner_product_scaling_zero_norm :
    (cachedBeamSearch EIP0 100 [1] 2 2 [0, 0] [0, 0] 2 defaultFlags UINT32_MAX {}).map
      (fun r => (r.distances.getD 1 0, r.fullRetset.getD 1 { id := 0, distance := 0 })) =
      .ok (-1, { id := 1, distance := 1 }) ∧
    (-1 : ℚ) ≠ -(1 : ℚ) * (EIP0.maxBaseNorm * queryNormOf EIP0 [1]) := by
  constructor
  · decide
  · decide

/-- C7 counterexample: on `E1` with `min_l = 5`, `max_l = 10`,
`range = 3/2`, the first iteration returns `res_count = 2`, i.e. fewer
than half (`2·2 < 5`) of the 5 results lie within the radius — yet the
loop runs a second iteration with `l_search = 10`, because the code
compares against `(uint32_t)(5/2.0) = 2`, not against half. -/
theorem range_search_extra_iteration :
    (rangeSearch E1 50 100 [0] (3 / 2) 5 10 [] [] 1 {}).map
      (fun r => r.trace) = .ok [(5, 2), (10, 2)] ∧ 2 * 2 < 5 := by
  constructor
  · decide
  · decide

theorem cachedBeamSearch_ok_decompose {env : IndexEnv} {fuel : ℕ} {q : Vec}
    {k l : ℕ} {i0 : List NodeId} {d0 : List Dist} {bw : ℕ} {fl : SearchFlags}
    {io : ℕ} {s0 : QueryStats} {res : SearchResult}
    (h : cachedBeamSearch env fuel q k l i0 d0 bw fl io s0 = .ok res) :
    ∃ st0 st, initState (mkSearchCtx env fl q bw io) l s0 = .ok st0 ∧
      searchLoop (mkSearchCtx env fl q bw io) fuel st0 = some st ∧
      searchFinish (mkSearchCtx env fl q bw io) (queryNormOf env q) k i0 d0 st = .ok res := by
  unfold cachedBeamSearch at h
  try dsimp only at h
  split at h
  · simp at h
  · split at h
    · simp at h
    · rename_i st0 hst0
      split at h
      · simp at h
      · rename_i st hst
        exact ⟨st0, st, hst0, hst, h⟩

theorem reorderStage_ok_sorted {c : SearchCtx} {k : ℕ} {full1 : List Neighbor}
    {s : QueryStats} {p : List Neighbor × QueryStats}
    (hs : List.Sorted nbrLe full1) (h : reorderStage c k full1 s = .ok p) :
    List.Sorted nbrLe p.1 := by
  unfold reorderStage at h
  split at h
  · split at h
    · simp at h
    · try dsimp only at h
      simp only [Except.ok.injEq] at h
      rw [← h]
      exact List.sorted_insertionSort nbrLe _
  · simp only [Except.ok.injEq] at h
    rw [← h]
    exact hs

theorem reorderStage_ok_ids_nodup {c : SearchCtx} {k : ℕ} {full1 : List Neighbor}
    {s : QueryStats} {p : List Neighbor × QueryStats}
    (h : reorderStage c k full1 s = .ok p)
    (hnd : (full1.map (fun nb => nb.id)).Nodup) :
    (p.1.map (fun nb => nb.id)).Nodup := by
  unfold reorderStage at h
  split at h
  · split at h
    · simp at h
    · try dsimp only at h
      simp only [Except.ok.injEq] at h
      rw [← h]
      have hperm := List.perm_insertionSort nbrLe
        ((if full1.length > k * FULL_PRECISION_REORDER_MULTIPLIER then
            full1.take (k * FULL_PRECISION_REORDER_MULTIPLIER) else full1).map
          (fun nb => { nb with distance := c.env.distCmp c.env.dataDim c.alignedQuery (c.env.reorderCoords nb.id) }))
      refine ((hperm.map (fun nb => nb.id)).nodup_iff).mpr ?_
      rw [List.map_map]
      have : ((if full1.length > k * FULL_PRECISION_REORDER_MULTIPLIER then
            full1.take (k * FULL_PRECISION_REORDER_MULTIPLIER) else full1).map
          ((fun nb => nb.id) ∘ (fun nb => { nb with distance := c.env.distCmp c.env.dataDim c.alignedQuery (c.env.reorderCoords nb.id) }))) =
          ((if full1.length > k * FULL_PRECISION_REORDER_MULTIPLIER then
            full1.take (k * FULL_PRECISION_REORDER_MULTIPLIER) else full1).map (fun nb => nb.id)) := by
        simp
      rw [this]
      split
      · rw [List.map_take]
        exact hnd.sublist (List.take_sublist _ _)
      · exact hnd
  · simp only [Except.ok.injEq] at h
    rw [← h]
    exact hnd

theorem overwrite_keeps_ids (c : SearchCtx) (embs : List Vec) (full : List Neighbor) :
    ((full.enum.map (fun p => match embs.get? p.1 with
      | some e => { p.2 with distance := embDist c e }
      | none => p.2)).map (fun nb => nb.id)) = full.map (fun nb => nb.id) := by
  rw [List.map_map]
  have h2 : ∀ p ∈ full.enum,
      ((fun nb => nb.id) ∘ (fun p : ℕ × Neighbor => match embs.get? p.1 with
        | some e => { p.2 with distance := embDist c e }
        | none => p.2)) p = ((fun nb => nb.id) ∘ Prod.snd) p := by
    intro p _
    simp only [Function.comp_apply]
    split <;> rfl
  rw [List.map_congr_left h2, ← List.map_map, List.enum_map_snd]

theorem deferredStage_ok_ids {c : SearchCtx} {full full0 : List Neighbor}
    (h : deferredStage c full = .ok (some full0)) :
    full0.map (fun nb => nb.id) = full.map (fun nb => nb.id) := by
  unfold deferredStage at h
  split at h
  · try dsimp only at h
    split at h
    · simp at h
    · split at h
      · simp at h
      · try dsimp only at h
        split at h
        · simp at h
        · simp only [Except.ok.injEq, Option.some.injEq] at h
          rw [← h]
          exact overwrite_keeps_ids c _ full
  · simp only [Except.ok.injEq, Option.some.injEq] at h
    rw [← h]

/-- C8 counterexample: with `N = 4` points a request of 2 nodes is reduced
to 1 (not to 10% of `N`), and the resulting `node_list` holds 1 node,
which exceeds 10% of `N` (= 0.4). -/
theorem cache_bfs_cap_exceeds_ten_percent :
    (cacheBfsLevels E8 50 2).length = 1 ∧
    ¬ ((((cacheBfsLevels E8 50 2).length : ℚ)) ≤ (E8.numPoints : ℚ) * (1 / 10)) := by
  constructor
  · decide
  · decide

theorem outDistOf_ip {env : IndexEnv} {qn : ℚ} {nb : Neighbor}
    (hm : env.metric = .INNER_PRODUCT) :
    outDistOf env qn nb =
      if env.maxBaseNorm ≠ 0 then -nb.distance * (env.maxBaseNorm * qn)
      else -nb.distance := by
  unfold outDistOf
  rw [hm]
  simp

theorem outDistOf_l2cos {env : IndexEnv} {qn : ℚ} {nb : Neighbor}
    (hm : env.metric = .L2 ∨ env.metric = .COSINE) :
    outDistOf env qn nb = nb.distance := by
  unfold outDistOf
  rcases hm with hm | hm <;> rw [hm] <;> simp

theorem searchFinish_ok_spec {c : SearchCtx} {qn : ℚ} {k : ℕ}
    {i0 : List NodeId} {d0 : List Dist} {st : LoopState} {res : SearchResult}
    (h : searchFinish c qn k i0 d0 st = .ok res) (he : res.earlyReturn = false) :
    k ≤ res.fullRetset.length ∧
    res.indices = (res.fullRetset.take k).map (remapId c.env) ++ i0.drop k ∧
    res.distances = (res.fullRetset.take k).map (outDistOf c.env qn) ++ d0.drop k ∧
    List.Sorted nbrLe res.fullRetset ∧
    res.numIos = st.numIos ∧ res.hasUnexpEnd = st.retset.hasUnexpanded ∧
    ((st.fullRetset.map (fun nb => nb.id)).Nodup →
      (res.fullRetset.map (fun nb => nb.id)).Nodup) := by
  unfold searchFinish at h
  split at h
  · simp at h
  · rename_i heq
    simp only [Except.ok.injEq] at h
    rw [← h] at he
    simp at he
  · rename_i full0 heq
    try dsimp only at h
    split at h
    · simp at h
    · rename_i full stats hreo
      split at h
      · simp at h
      · rename_i hlen
        simp only [Except.ok.injEq] at h
        have hsorted : List.Sorted nbrLe full :=
          reorderStage_ok_sorted (List.sorted_insertionSort nbrLe full0) hreo
        rw [← h]
        simp only [not_lt] at hlen
        refine ⟨hlen, rfl, rfl, hsorted, rfl, rfl, ?_⟩
        intro hnd
        refine reorderStage_ok_ids_nodup hreo ?_
        have hperm := (List.perm_insertionSort nbrLe full0).map (fun nb => nb.id)
        refine hperm.nodup_iff.mpr ?_
        rw [deferredStage_ok_ids heq]
        exact hnd

/-- C6 (amended): for `metric = INNER_PRODUCT`, each of the `k` output
distances equals the negation of the lifted-space L2 distance kept in
`full_retset`, rescaled by `max_base_norm * query_norm` when
`_max_base_norm != 0` and left unscaled when `_max_base_norm == 0`
(the rescale is guarded by `if (_max_base_norm != 0)`). -/
theorem inner_product_output_scaling (env : IndexEnv) (fuel : ℕ) (q : Vec)
    (k l : ℕ) (i0 : List NodeId) (d0 : List Dist) (bw : ℕ) (fl : SearchFlags)
    (io : ℕ) (s0 : QueryStats) (res : SearchResult) (i : ℕ)
    (hm : env.metric = .INNER_PRODUCT)
    (h : cachedBeamSearch env fuel q k l i0 d0 bw fl io s0 = .ok res)
    (he : res.earlyReturn = false) (hi : i < k) :
    res.distances.getD i 0 =
      (if env.maxBaseNorm ≠ 0 then
        -(res.fullRetset.getD i { id := 0, distance := 0 }).distance *
          (env.maxBaseNorm * queryNormOf env q)
       else -(res.fullRetset.getD i { id := 0, distance := 0 }).distance) := by
  obtain ⟨st0, st, _, _, hfin⟩ := cachedBeamSearch_ok_decompose h
  obtain ⟨hk, _, hds, _⟩ := searchFinish_ok_spec hfin he
  have hlen : ((res.fullRetset.take k).map (outDistOf (mkSearchCtx env fl q bw io).env (queryNormOf env q))).length = k := by
    simp [List.length_take, Nat.min_eq_left hk]
  rw [hds]
  rw [List.getD_append _ _ _ _ (by rw [hlen]; exact hi)]
  have hi2 : i < (res.fullRetset.take k).length := by
    simp [List.length_take, Nat.min_eq_left hk]; exact hi
  rw [List.getD_eq_getElem _ _ (by rw [List.length_map]; exact hi2)]
  rw [List.getElem_map]
  have htake : (res.fullRetset.take k)[i] = res.fullRetset.getD i { id := 0, distance := 0 } := by
    rw [List.getElem_take]
    rw [List.getD_eq_getElem]
  rw [htake]
  unfold outDistOf
  simp only [mkSearchCtx]
  rw [hm]
  simp

/-- C2 (amended): the `k` distances written to the output buffer are
non-decreasing for L2 and cosine; for inner product they are the negated
(and, when `max_base_norm != 0`, rescaled) sorted distances, hence
non-increasing whenever `max_base_norm * query_norm ≥ 0` (always, as both
are norms). -/
theorem output_distances_monotone (env : IndexEnv) (fuel : ℕ) (q : Vec)
    (k l : ℕ) (i0 : List NodeId) (d0 : List Dist) (bw : ℕ) (fl : SearchFlags)
    (io : ℕ) (s0 : QueryStats) (res : SearchResult)
    (h : cachedBeamSearch env fuel q k l i0 d0 bw fl io s0 = .ok res)
    (he : res.earlyReturn = false) :
    ((env.metric = .L2 ∨ env.metric = .COSINE) →
      List.Sorted (· ≤ ·) (res.distances.take k)) ∧
    (env.metric = .INNER_PRODUCT → 0 ≤ env.maxBaseNorm * queryNormOf env q →
      List.Sorted (· ≥ ·) (res.distances.take k)) := by
  obtain ⟨st0, st, _, _, hfin⟩ := cachedBeamSearch_ok_decompose h
  obtain ⟨hk, _, hds, hsorted, _⟩ := searchFinish_ok_spec hfin he
  have hlen : ((res.fullRetset.take k).map (outDistOf (mkSearchCtx env fl q bw io).env (queryNormOf env q))).length = k := by
    simp [List.length_take, Nat.min_eq_left hk]
  have htk : res.distances.take k =
      (res.fullRetset.take k).map (outDistOf (mkSearchCtx env fl q bw io).env (queryNormOf env q)) := by
    rw [hds, List.take_append_of_le_length (by rw [hlen]), List.take_of_length_le (by rw [hlen])]
  have hsortedTake : List.Sorted nbrLe (res.fullRetset.take k) :=
    hsorted.sublist (List.take_sublist _ _)
  constructor
  · intro hmet
    rw [htk]
    refine List.Pairwise.map _ ?_ hsortedTake
    intro a b hab
    simp only [mkSearchCtx]
    rw [outDistOf_l2cos hmet, outDistOf_l2cos hmet]
    rcases hab with h1 | ⟨h1, _⟩
    · exact le_of_lt h1
    · exact le_of_eq h1
  · intro hmet hscale
    rw [htk]
    refine List.Pairwise.map _ ?_ hsortedTake
    intro a b hab
    have hd : a.distance ≤ b.distance := by
      rcases hab with h1 | ⟨h1, _⟩
      · exact le_of_lt h1
      · exact le_of_eq h1
    simp only [mkSearchCtx]
    rw [outDistOf_ip hmet, outDistOf_ip hmet]
    rcases eq_or_ne env.maxBaseNorm 0 with hmb | hmb
    · rw [if_neg (by simp [hmb]), if_neg (by simp [hmb])]
      exact neg_le_neg hd
    · rw [if_pos hmb, if_pos hmb, neg_mul, neg_mul]
      exact neg_le_neg (mul_le_mul_of_nonneg_right hd hscale)

theorem output_distances_monotone_witness :
    List.Sorted (· ≤ ·) (res1.distances.take 5) :=
  (output_distances_monotone E1 100 [0] 5 5 (List.replicate 5 0)
    (List.replicate 5 fltMax) 4 defaultFlags UINT32_MAX {} res1
    (by decide) (by decide)).1 (Or.inl rfl)

theorem foldl_pres_ios {α : Type} (f : LoopState → α → LoopState)
    (hf : ∀ st a, iosOf (f st a) = iosOf st) (l : List α) (st : LoopState) :
    iosOf (l.foldl f st) = iosOf st := by
  induction l generalizing st with
  | nil => rfl
  | cons a l ih => rw [List.foldl_cons, ih, hf]

theorem insertOneNbr_ios (c : SearchCtx) (b : Bool) (st : LoopState)
    (p : NodeId × Dist) : iosOf (insertOneNbr c b st p) = iosOf st := by
  unfold insertOneNbr
  split_ifs <;> rfl

theorem insertNbrList_ios (c : SearchCtx) (b : Bool) (st : LoopState)
    (ps : List (NodeId × Dist)) : iosOf (insertNbrList c b st ps) = iosOf st :=
  foldl_pres_ios _ (insertOneNbr_ios c b) ps st

theorem processCachedOne_ios (c : SearchCtx) (st : LoopState) (nid : NodeId) :
    iosOf (processCachedOne c st nid) = iosOf st := by
  unfold processCachedOne
  rw [insertNbrList_ios]
  split_ifs <;> rfl

theorem processFrontierOne_ios (c : SearchCtx) (acc : LoopState × List NodeId)
    (nid : NodeId) : iosOf (processFrontierOne c acc nid).1 = iosOf acc.1 := by
  unfold processFrontierOne
  try dsimp only
  split_ifs <;>
    first
      | (rw [insertNbrList_ios]; rfl)
      | rfl
      | (cases hl : assocLookup acc.1.distCtx.nodeDistances nid <;>
          simp only [hl] <;>
          first
            | (rw [insertNbrList_ios]; rfl)
            | rfl)

theorem processBatched_ios (c : SearchCtx) (st : LoopState) (b : List NodeId) :
    iosOf (processBatched c st b) = iosOf st := by
  unfold processBatched
  rw [insertNbrList_ios]
  rfl

theorem popBeamGo_length (ch : NodeId → Bool) (bw : ℕ) :
    ∀ (fuel fc : ℕ) (q : NeighborPriorityQueue),
      (popBeamGo ch bw fuel fc q).1.length ≤ fuel := by
  intro fuel
  induction fuel with
  | zero => intro fc q; simp [popBeamGo]
  | succ f ih =>
    intro fc q
    unfold popBeamGo
    split
    · split
      · simp
      · simp only [List.length_cons]
        exact Nat.succ_le_succ (ih _ _)
    · simp

theorem popBeam_length (ch : NodeId → Bool) (bw : ℕ) (q : NeighborPriorityQueue) :
    (popBeam ch bw q).1.length ≤ bw :=
  popBeamGo_length ch bw bw 0 q

theorem processCachedOne_numIos (c : SearchCtx) (st : LoopState) (nid : NodeId) :
    (processCachedOne c st nid).numIos = st.numIos :=
  congrArg Prod.fst (processCachedOne_ios c st nid)

theorem processCachedOne_nIos (c : SearchCtx) (st : LoopState) (nid : NodeId) :
    (processCachedOne c st nid).stats.nIos = st.stats.nIos :=
  congrArg Prod.snd (processCachedOne_ios c st nid)

theorem foldl_cached_numIos (c : SearchCtx) (l : List NodeId) (st : LoopState) :
    (l.foldl (processCachedOne c) st).numIos = st.numIos :=
  congrArg Prod.fst (foldl_pres_ios _ (processCachedOne_ios c) l st)

theorem foldl_cached_nIos (c : SearchCtx) (l : List NodeId) (st : LoopState) :
    (l.foldl (processCachedOne c) st).stats.nIos = st.stats.nIos :=
  congrArg Prod.snd (foldl_pres_ios _ (processCachedOne_ios c) l st)

theorem foldl_frontier_ios (c : SearchCtx) (l : List NodeId)
    (acc : LoopState × List NodeId) :
    iosOf (l.foldl (processFrontierOne c) acc).1 = iosOf acc.1 := by
  induction l generalizing acc with
  | nil => rfl
  | cons a l ih => rw [List.foldl_cons, ih, processFrontierOne_ios]

theorem foldl_frontier_numIos (c : SearchCtx) (l : List NodeId)
    (acc : LoopState × List NodeId) :
    (l.foldl (processFrontierOne c) acc).1.numIos = acc.1.numIos :=
  congrArg Prod.fst (foldl_frontier_ios c l acc)

theorem foldl_frontier_nIos (c : SearchCtx) (l : List NodeId)
    (acc : LoopState × List NodeId) :
    (l.foldl (processFrontierOne c) acc).1.stats.nIos = acc.1.stats.nIos :=
  congrArg Prod.snd (foldl_frontier_ios c l acc)

theorem processBatched_numIos (c : SearchCtx) (st : LoopState) (b : List NodeId) :
    (processBatched c st b).numIos = st.numIos :=
  congrArg Prod.fst (processBatched_ios c st b)

theorem processBatched_nIos (c : SearchCtx) (st : LoopState) (b : List NodeId) :
    (processBatched c st b).stats.nIos = st.stats.nIos :=
  congrArg Prod.snd (processBatched_ios c st b)

theorem searchIter_ios (c : SearchCtx) (st : LoopState) :
    ∃ d ≤ c.beamWidth,
      (searchIter c st).numIos = st.numIos + d ∧
      (searchIter c st).stats.nIos = st.stats.nIos + d := by
  refine ⟨((popBeam (fun id => (c.env.nhoodCache id).isSome) c.beamWidth st.retset).1.filter
      (fun id => (c.env.nhoodCache id).isNone)).length, ?_, ?_, ?_⟩
  · exact le_trans (List.length_filter_le _ _) (popBeam_length _ _ _)
  · unfold searchIter
    try dsimp only
    split_ifs with hb he
    · rw [processBatched_numIos, foldl_frontier_numIos]
      simp only [foldl_cached_numIos]
      rw [List.isEmpty_iff] at he
      rw [he]
      simp
    · rw [processBatched_numIos, foldl_frontier_numIos]
      simp only [foldl_cached_numIos]
    · rename_i he
      rw [foldl_frontier_numIos]
      simp only [foldl_cached_numIos]
      rw [List.isEmpty_iff] at he
      rw [he]
      simp
    · rw [foldl_frontier_numIos]
      simp only [foldl_cached_numIos]
  · unfold searchIter
    try dsimp only
    split_ifs with hb he
    · rw [processBatched_nIos, foldl_frontier_nIos]
      simp only [foldl_cached_nIos]
      rw [List.isEmpty_iff] at he
      rw [he]
      simp
    · rw [processBatched_nIos, foldl_frontier_nIos]
      simp only [foldl_cached_nIos]
    · rename_i he
      rw [foldl_frontier_nIos]
      simp only [foldl_cached_nIos]
      rw [List.isEmpty_iff] at he
      rw [he]
      simp
    · rw [foldl_frontier_nIos]
      simp only [foldl_cached_nIos]

theorem searchLoop_ok_facts (c : SearchCtx) :
    ∀ (fuel : ℕ) (st st' : LoopState), searchLoop c fuel st = some st' →
      (¬(st'.retset.hasUnexpanded = true ∧ st'.numIos < c.ioLimit)) ∧
      (st'.stats.nIos + st.numIos = st.stats.nIos + st'.numIos) ∧
      (st.numIos ≤ c.ioLimit - 1 + c.beamWidth →
        st'.numIos ≤ c.ioLimit - 1 + c.beamWidth) := by
  intro fuel
  induction fuel with
  | zero =>
    intro st st' h
    unfold searchLoop at h
    split at h
    · simp at h
    · rename_i hcond
      simp only [Option.some.injEq] at h
      rw [← h]
      exact ⟨hcond, by omega, fun hb => hb⟩
  | succ f ih =>
    intro st st' h
    unfold searchLoop at h
    split at h
    · rename_i hcond
      obtain ⟨hstop, hios, hbound⟩ := ih (searchIter c st) st' h
      obtain ⟨d, hd, hnum, hnio⟩ := searchIter_ios c st
      refine ⟨hstop, by omega, fun hb => ?_⟩
      refine hbound ?_
      have : st.numIos < c.ioLimit := hcond.2
      omega
    · rename_i hcond
      simp only [Option.some.injEq] at h
      rw [← h]
      exact ⟨hcond, by omega, fun hb => hb⟩

theorem initState_ok_fields {c : SearchCtx} {l : ℕ} {s0 : QueryStats}
    {st0 : LoopState} (h : initState c l s0 = .ok st0) :
    st0.numIos = 0 ∧ st0.stats = s0 ∧ st0.fullRetset = [] := by
  unfold initState at h
  split at h
  · simp at h
  · try dsimp only at h
    simp only [Except.ok.injEq] at h
    rw [← h]
    exact ⟨rfl, rfl, rfl⟩

theorem reorderStage_skip {c : SearchCtx} {k : ℕ} {full1 : List Neighbor}
    {s : QueryStats} (hno : c.flags.useReorderData = false) :
    reorderStage c k full1 s = .ok (full1, s) := by
  unfold reorderStage
  rw [hno]
  simp

theorem searchFinish_ok_frame {c : SearchCtx} {qn : ℚ} {k : ℕ}
    {i0 : List NodeId} {d0 : List Dist} {st : LoopState} {res : SearchResult}
    (hno : c.flags.useReorderData = false)
    (h : searchFinish c qn k i0 d0 st = .ok res) :
    res.numIos = st.numIos ∧ res.hasUnexpEnd = st.retset.hasUnexpanded ∧
    res.stats = st.stats := by
  unfold searchFinish at h
  split at h
  · simp at h
  · simp only [Except.ok.injEq] at h
    rw [← h]
    exact ⟨rfl, rfl, rfl⟩
  · rename_i full0 heq
    try dsimp only at h
    rw [reorderStage_skip hno] at h
    try dsimp only at h
    split at h
    · simp at h
    · simp only [Except.ok.injEq] at h
      rw [← h]
      exact ⟨rfl, rfl, rfl⟩

/-- C3 (amended): on any normally-returning call without the reorder pass,
(a) the loop exits exactly when the frontier has no unexpanded node or the
cumulative issued reads have reached `io_limit`; (b) `stats.n_ios` grows
by exactly the number of issued reads; but (c) the cumulative reads may
overshoot `io_limit` by up to `beam_width - 1` (the budget is only checked
between iterations, each of which issues up to `beam_width` reads), so
`n_ios ≤ io_limit - 1 + beam_width` is the tight guarantee, not
`n_ios ≤ io_limit`. -/
theorem loop_exit_and_io_bound (env : IndexEnv) (fuel : ℕ) (q : Vec)
    (k l : ℕ) (i0 : List NodeId) (d0 : List Dist) (bw : ℕ) (fl : SearchFlags)
    (io : ℕ) (s0 : QueryStats) (res : SearchResult)
    (hno : fl.useReorderData = false)
    (h : cachedBeamSearch env fuel q k l i0 d0 bw fl io s0 = .ok res) :
    (res.hasUnexpEnd = false ∨ io ≤ res.numIos) ∧
    res.numIos ≤ io - 1 + bw ∧
    res.stats.nIos = s0.nIos + res.numIos := by
  obtain ⟨st0, st, hinit, hloop, hfin⟩ := cachedBeamSearch_ok_decompose h
  obtain ⟨hnum0, hstats0, _⟩ := initState_ok_fields hinit
  obtain ⟨hstop, hios, hbound⟩ := searchLoop_ok_facts _ fuel st0 st hloop
  obtain ⟨hrnum, hrunexp, hrstats⟩ := searchFinish_ok_frame hno hfin
  refine ⟨?_, ?_, ?_⟩
  · rw [hrunexp, hrnum]
    by_cases hu : st.retset.hasUnexpanded = true
    · right
      rcases Nat.lt_or_ge st.numIos io with hlt | hge
      · exact absurd ⟨hu, hlt⟩ hstop
      · exact hge
    · left
      simpa using hu
  · rw [hrnum]
    exact hbound (by omega)
  · rw [hrstats, hrnum]
    rw [hnum0, hstats0] at hios
    omega

theorem loop_exit_and_io_bound_witness :
    (res3.hasUnexpEnd = false ∨ 2 ≤ res3.numIos) ∧
    res3.numIos ≤ 2 - 1 + 2 ∧
    res3.stats.nIos = QueryStats.nIos {} + res3.numIos :=
  loop_exit_and_io_bound E3 100 [0] 1 4 [0] [0] 2 defaultFlags 2 {} res3
    (by decide) (by decide)

theorem setInsert_length_le (s : List ℕ) (x : ℕ) :
    (setInsert s x).length ≤ s.length + 1 := by
  unfold setInsert
  split
  · omega
  · simp

theorem bfsSeedMedoids_le (num : ℕ) :
    ∀ (ms : List NodeId) (cur : List ℕ), cur.length ≤ num →
      (bfsSeedMedoids num ms cur).length ≤ num := by
  intro ms
  induction ms with
  | nil => intro cur h; exact h
  | cons m ms ih =>
    intro cur h
    unfold bfsSeedMedoids
    split
    · rename_i hlt
      exact ih _ (le_trans (setInsert_length_le cur m) (by omega))
    · exact h

theorem bfsSeedFilterInner_le (num : ℕ) :
    ∀ (ys : List NodeId) (cur : List ℕ), cur.length < num →
      (bfsSeedFilterInner num ys cur).length ≤ num := by
  intro ys
  induction ys with
  | nil => intro cur h; exact le_of_lt h
  | cons y ys ih =>
    intro cur h
    unfold bfsSeedFilterInner
    have hle : (setInsert cur y).length ≤ num :=
      le_trans (setInsert_length_le cur y) (by omega)
    try dsimp only
    split
    · exact hle
    · rename_i hne
      exact ih _ (lt_of_le_of_ne hle hne)

theorem bfsSeedFilter_le (num : ℕ) :
    ∀ (xs : List (Label × List NodeId)) (cur : List ℕ), cur.length < num →
      (bfsSeedFilter num xs cur).length ≤ num := by
  intro xs
  induction xs with
  | nil => intro cur h; exact le_of_lt h
  | cons x xs ih =>
    intro cur h
    unfold bfsSeedFilter
    have hle : (bfsSeedFilterInner num x.2 cur).length ≤ num :=
      bfsSeedFilterInner_le num x.2 cur h
    try dsimp only
    split
    · exact hle
    · rename_i hne
      exact ih _ (lt_of_le_of_ne hle hne)

theorem bfsExpandNbrs_inv (num : ℕ) (nodeSet : List ℕ) :
    ∀ (nbrs : List NodeId) (cur : List ℕ) (fin : Bool),
      cur.length + nodeSet.length ≤ num →
      (fin = false → cur.length + nodeSet.length < num) →
      (bfsExpandNbrs num nodeSet nbrs cur fin).1.length + nodeSet.length ≤ num ∧
      ((bfsExpandNbrs num nodeSet nbrs cur fin).2 = false →
        (bfsExpandNbrs num nodeSet nbrs cur fin).1.length + nodeSet.length < num) := by
  intro nbrs
  induction nbrs with
  | nil => intro cur fin h1 h2; exact ⟨h1, h2⟩
  | cons nbr rest ih =>
    intro cur fin h1 h2
    unfold bfsExpandNbrs
    split
    · exact ⟨h1, h2⟩
    · rename_i hfin
      have hfin0 : fin = false := by
        cases fin
        · rfl
        · exact absurd rfl hfin
      subst hfin0
      have hlt := h2 rfl
      try dsimp only
      split
      · refine ih _ _ (by omega) ?_
        intro hf
        by_cases hge : num ≤ cur.length + nodeSet.length
        · rw [if_pos hge] at hf
          simp at hf
        · omega
      · have hsl := setInsert_length_le cur nbr
        refine ih _ _ (by omega) ?_
        intro hf
        by_cases hge : num ≤ (setInsert cur nbr).length + nodeSet.length
        · rw [if_pos hge] at hf
          simp at hf
        · omega

theorem bfsExpandNodes_inv (env : IndexEnv) (num : ℕ) (nodeSet : List ℕ) :
    ∀ (ids : List NodeId) (cur : List ℕ) (fin : Bool),
      cur.length + nodeSet.length ≤ num →
      (fin = false → cur.length + nodeSet.length < num) →
      (bfsExpandNodes env num nodeSet ids cur fin).1.length + nodeSet.length ≤ num := by
  intro ids
  induction ids with
  | nil => intro cur fin h1 _; exact h1
  | cons id rest ih =>
    intro cur fin h1 h2
    unfold bfsExpandNodes
    split
    · exact h1
    · split
      · have hr := bfsExpandNbrs_inv num nodeSet (env.diskNbrs id) cur fin h1 h2
        exact ih _ _ hr.1 hr.2
      · exact ih _ _ h1 h2

theorem foldl_setInsert_length (l : List ℕ) :
    ∀ s : List ℕ, (l.foldl setInsert s).length ≤ s.length + l.length := by
  induction l with
  | nil => intro s; simp
  | cons x l ih =>
    intro s
    rw [List.foldl_cons]
    have := ih (setInsert s x)
    have := setInsert_length_le s x
    simp only [List.length_cons]
    omega

theorem bfsLevels_inv (env : IndexEnv) (num : ℕ) :
    ∀ (fuel : ℕ) (nodeSet cur : List ℕ),
      nodeSet.length + cur.length ≤ num →
      (bfsLevels env num fuel nodeSet cur).1.length +
        (bfsLevels env num fuel nodeSet cur).2.length ≤ num := by
  intro fuel
  induction fuel with
  | zero => intro nodeSet cur h; exact h
  | succ f ih =>
    intro nodeSet cur h
    unfold bfsLevels
    split
    · rename_i hcond
      try dsimp only
      set toExpand := cur.filter (fun id => !(decide (id ∈ nodeSet))) with hte
      have hteLen : toExpand.length ≤ cur.length := List.length_filter_le _ _
      set nodeSet' := toExpand.foldl setInsert nodeSet with hns
      have hnsLen : nodeSet'.length ≤ nodeSet.length + toExpand.length :=
        foldl_setInsert_length toExpand nodeSet
      have hnsLt : nodeSet'.length < num := by
        have := hcond.1
        omega
      refine ih nodeSet' _ ?_
      rw [Nat.add_comm]
      exact bfsExpandNodes_inv env num nodeSet' _ [] false
        (by simpa using le_of_lt hnsLt) (by intro _; simpa using hnsLt)
    · exact h

/-- C8 (amended): an oversized cache request is reduced to
`round(0.1 * N)` — or to 1 when that rounds to 0 — before the BFS runs
(i.e. to `max 1 (round(N/10))`, which can exceed 10% of `N`), and the
collected `node_list` never exceeds the reduced cap. -/
theorem cache_bfs_cap (env : IndexEnv) (fuel : ℕ) (n : ℕ) :
    (cacheBfsLevels env fuel n).length ≤ bfsCap env.numPoints n ∧
    (Int.toNat (round ((env.numPoints : ℚ) * (1 / 10))) < n →
      bfsCap env.numPoints n =
        max 1 (Int.toNat (round ((env.numPoints : ℚ) * (1 / 10))))) := by
  constructor
  · unfold cacheBfsLevels
    try dsimp only
    set num := bfsCap env.numPoints n with hnum
    set cur1 := bfsSeedMedoids num env.medoids [] with hcur1
    have hc1 : cur1.length ≤ num := bfsSeedMedoids_le num env.medoids [] (by simp)
    set cur2 := if env.filterToMedoids.length > 0 ∧ cur1.length < num then
        bfsSeedFilter num env.filterToMedoids cur1
      else cur1 with hcur2
    have hc2 : cur2.length ≤ num := by
      rw [hcur2]
      split
      · rename_i hg
        exact bfsSeedFilter_le num env.filterToMedoids cur1 hg.2
      · exact hc1
    rw [List.length_append]
    exact bfsLevels_inv env num fuel [] cur2 (by simpa using hc2)
  · intro hlt
    unfold bfsCap
    rw [if_pos hlt]
    split
    · rename_i h0
      rw [h0]
      simp
    · rename_i h0
      omega

theorem cache_bfs_cap_witness :
    bfsCap E8.numPoints 2 =
      max 1 (Int.toNat (round ((E8.numPoints : ℚ) * (1 / 10)))) :=
  (cache_bfs_cap E8 50 2).2 (by decide)

theorem Inv_congr {st1 st2 : LoopState} (hr : st2.retset = st1.retset)
    (hv : st2.visited = st1.visited) (hf : st2.fullRetset = st1.fullRetset)
    (h : Inv st1) : Inv st2 := by
  unfold Inv retIds fullIds at *
  rw [hr, hv, hf]
  exact h

theorem Pending_congr {st1 st2 : LoopState} {P : List NodeId}
    (hr : st2.retset = st1.retset) (hv : st2.visited = st1.visited)
    (hf : st2.fullRetset = st1.fullRetset) (h : Pending st1 P) : Pending st2 P := by
  unfold Pending fullIds at *
  rw [hr, hv, hf]
  exact h

theorem npq_insert_mem {q : NeighborPriorityQueue} {nb : Neighbor} {e : PQEntry}
    (h : e ∈ (q.insert nb).data) :
    e ∈ q.data ∨ e = ⟨nb.id, nb.distance, false⟩ := by
  unfold NeighborPriorityQueue.insert at h
  split at h
  · exact Or.inl h
  · have h2 := List.take_subset _ _ h
    rcases (List.mem_orderedInsert entryLe).mp h2 with h3 | h3
    · exact Or.inr h3
    · exact Or.inl h3

theorem npq_insert_ids_nodup {q : NeighborPriorityQueue} {nb : Neighbor}
    (hnd : (retIds q).Nodup) : (retIds (q.insert nb)).Nodup := by
  unfold NeighborPriorityQueue.insert
  split
  · exact hnd
  · rename_i hnotin
    have hninq : nb.id ∉ retIds q := by
      intro hmem
      refine hnotin ?_
      rw [List.any_eq_true]
      unfold retIds at hmem
      obtain ⟨e, he, heq⟩ := List.mem_map.mp hmem
      exact ⟨e, he, by simp [heq]⟩
    have hperm : List.Perm
        ((List.orderedInsert entryLe
          { id := nb.id, distance := nb.distance, expanded := false } q.data).map
            (fun e => e.id))
        (nb.id :: retIds q) :=
      List.Perm.map (fun e => e.id)
        (List.perm_orderedInsert entryLe
          { id := nb.id, distance := nb.distance, expanded := false } q.data)
    have hnd2 := hperm.nodup_iff.mpr (List.nodup_cons.mpr ⟨hninq, hnd⟩)
    unfold retIds
    exact hnd2.sublist ((List.take_sublist _ _).map _)

theorem inv_retset_insert {st : LoopState} {nb : Neighbor} {P : List NodeId}
    (hInv : Inv st) (hP : Pending st P) (hv : nb.id ∈ st.visited)
    (hnf : nb.id ∉ fullIds st) (hnP : nb.id ∉ P) :
    Inv { st with retset := st.retset.insert nb } ∧
    Pending { st with retset := st.retset.insert nb } P := by
  obtain ⟨i1, i2, i3, i4, i5⟩ := hInv
  obtain ⟨p1, p2⟩ := hP
  constructor
  · refine ⟨npq_insert_ids_nodup i1, ?_, i3, i4, ?_⟩
    · intro e he
      rcases npq_insert_mem he with h1 | h1
      · exact i2 e h1
      · rw [h1]
        exact hv
    · intro nb' hnb' e he heq
      rcases npq_insert_mem he with h1 | h1
      · exact i5 nb' hnb' e h1 heq
      · exfalso
        rw [h1] at heq
        simp only at heq
        refine hnf ?_
        rw [heq]
        exact List.mem_map.mpr ⟨nb', hnb', rfl⟩
  · refine ⟨p1, fun x hx => ?_⟩
    obtain ⟨a1, a2, a3⟩ := p2 x hx
    refine ⟨a1, a2, ?_⟩
    intro e he heq
    rcases npq_insert_mem he with h1 | h1
    · exact a3 e h1 heq
    · exfalso
      rw [h1] at heq
      simp only at heq
      exact hnP (heq ▸ hx)

theorem insertOneNbr_inv (c : SearchCtx) (b : Bool) (st : LoopState)
    (p : NodeId × Dist) (P : List NodeId) (hInv : Inv st) (hP : Pending st P) :
    Inv (insertOneNbr c b st p) ∧ Pending (insertOneNbr c b st p) P := by
  have i4 := hInv.2.2.2.1
  have p2 := hP.2
  unfold insertOneNbr
  split
  · exact ⟨hInv, hP⟩
  · rename_i hnv
    have hInv1 : Inv { st with visited := p.1 :: st.visited } := by
      obtain ⟨i1, i2, i3, i4, i5⟩ := hInv
      refine ⟨i1, fun e he => ?_, i3, fun nb hnb => ?_, i5⟩
      · exact List.mem_cons_of_mem _ (i2 e he)
      · exact List.mem_cons_of_mem _ (i4 nb hnb)
    have hP1 : Pending { st with visited := p.1 :: st.visited } P := by
      obtain ⟨p1, p2⟩ := hP
      refine ⟨p1, fun x hx => ?_⟩
      obtain ⟨a1, a2, a3⟩ := p2 x hx
      exact ⟨List.mem_cons_of_mem _ a1, a2, a3⟩
    split
    · exact ⟨hInv1, hP1⟩
    · split
      · exact ⟨hInv1, hP1⟩
      · have hnf : p.1 ∉ st.fullRetset.map (fun nb => nb.id) := by
          intro hmem
          obtain ⟨nb', hnb', heq⟩ := List.mem_map.mp hmem
          exact hnv (heq ▸ i4 nb' hnb')
        have hnP : (p.1 : NodeId) ∉ P := fun hx => hnv (p2 p.1 hx).1
        cases b with
        | false =>
          dsimp only
          try rw [if_neg (show ¬(false = true) by decide)]
          refine inv_retset_insert ?_ ?_ ?_ hnf hnP
          · exact Inv_congr rfl rfl rfl hInv1
          · exact Pending_congr rfl rfl rfl hP1
          · exact List.mem_cons_self _ _
        | true =>
          dsimp only
          try rw [if_pos rfl]
          refine inv_retset_insert ?_ ?_ ?_ hnf hnP
          · exact Inv_congr rfl rfl rfl hInv1
          · exact Pending_congr rfl rfl rfl hP1
          · exact List.mem_cons_self _ _

theorem pending_nil (st : LoopState) : Pending st [] :=
  ⟨List.nodup_nil, fun p hp => absurd hp (List.not_mem_nil p)⟩

theorem Pending_perm {st : LoopState} {P Q : List NodeId}
    (h : Pending st P) (hp : List.Perm P Q) : Pending st Q :=
  ⟨hp.nodup_iff.mp h.1, fun p hpm => h.2 p (hp.mem_iff.mpr hpm)⟩

theorem markFirst_some_facts :
    ∀ (d : List PQEntry) (nb : Neighbor) (d2 : List PQEntry),
      NeighborPriorityQueue.markFirst d = some (nb, d2) →
      d2.map (fun e => e.id) = d.map (fun e => e.id) ∧
      (∃ e ∈ d, e.expanded = false ∧ e.id = nb.id) ∧
      (∀ e ∈ d2, e ∈ d ∨ e.expanded = true) ∧
      ((d.map (fun e => e.id)).Nodup →
        ∀ e ∈ d2, e.id = nb.id → e.expanded = true) := by
  intro d
  induction d with
  | nil =>
    intro nb d2 h
    simp [NeighborPriorityQueue.markFirst] at h
  | cons e rest ih =>
    intro nb d2 h
    rw [NeighborPriorityQueue.markFirst] at h
    split at h
    · rename_i hexp
      split at h
      · exact absurd h (by simp)
      · rename_i nb0 rest2 hmf
        simp only [Option.some.injEq, Prod.mk.injEq] at h
        obtain ⟨hnb, hd2⟩ := h
        subst hnb
        subst hd2
        obtain ⟨hids, hex, hmem, hmark⟩ := ih nb0 rest2 hmf
        refine ⟨?_, ?_, ?_, ?_⟩
        · simp only [List.map_cons, hids]
        · obtain ⟨e0, he0, hx⟩ := hex
          exact ⟨e0, List.mem_cons_of_mem _ he0, hx⟩
        · intro x hx
          rcases List.mem_cons.mp hx with h1 | h1
          · subst h1
            exact Or.inl (List.mem_cons_self _ _)
          · rcases hmem x h1 with h2 | h2
            · exact Or.inl (List.mem_cons_of_mem _ h2)
            · exact Or.inr h2
        · intro hnd x hx hid
          rw [List.map_cons] at hnd
          have hnd2 := List.nodup_cons.mp hnd
          rcases List.mem_cons.mp hx with h1 | h1
          · subst h1
            exact hexp
          · exact hmark hnd2.2 x h1 hid
    · rename_i hexp
      simp only [Option.some.injEq, Prod.mk.injEq] at h
      obtain ⟨hnb, hd2⟩ := h
      subst hnb
      subst hd2
      simp only [Bool.not_eq_true] at hexp
      refine ⟨rfl, ?_, ?_, ?_⟩
      · exact ⟨e, List.mem_cons_self _ _, hexp, rfl⟩
      · intro x hx
        rcases List.mem_cons.mp hx with h1 | h1
        · subst h1
          exact Or.inr rfl
        · exact Or.inl (List.mem_cons_of_mem _ h1)
      · intro hnd x hx hid
        rw [List.map_cons] at hnd
        have hnd2 := List.nodup_cons.mp hnd
        rcases List.mem_cons.mp hx with h1 | h1
        · subst h1
          rfl
        · exact absurd (List.mem_map.mpr ⟨x, h1, hid⟩) hnd2.1

theorem closestUnexpanded_inv {st : LoopState} {P : List NodeId} {nb : Neighbor}
    {q2 : NeighborPriorityQueue}
    (h : st.retset.closestUnexpanded = some (nb, q2))
    (hI : Inv st) (hP : Pending st P) :
    Inv { st with retset := q2 } ∧ Pending { st with retset := q2 } (nb.id :: P) := by
  unfold NeighborPriorityQueue.closestUnexpanded at h
  split at h
  · simp at h
  · rename_i nb0 d hmf
    simp only [Option.some.injEq, Prod.mk.injEq] at h
    obtain ⟨hnb, hq2⟩ := h
    subst hnb
    subst hq2
    obtain ⟨hids, ⟨e0, he0, he0x, he0id⟩, hmem, hmark⟩ := markFirst_some_facts _ _ _ hmf
    obtain ⟨i1, i2, i3, i4, i5⟩ := hI
    obtain ⟨p1, p2⟩ := hP
    constructor
    · refine ⟨?_, ?_, i3, i4, ?_⟩
      · show (List.map (fun e => e.id) d).Nodup
        rw [hids]
        exact i1
      · intro e he
        have hin : e.id ∈ st.retset.data.map (fun e => e.id) := by
          rw [← hids]
          exact List.mem_map.mpr ⟨e, he, rfl⟩
        obtain ⟨e1, he1, he1id⟩ := List.mem_map.mp hin
        rw [← he1id]
        exact i2 e1 he1
      · intro nb2 hnb2 e he heq
        rcases hmem e he with h1 | h1
        · exact i5 nb2 hnb2 e h1 heq
        · exact h1
    · have hnbP : nb0.id ∉ P := by
        intro hx
        have h2 := (p2 nb0.id hx).2.2 e0 he0 he0id
        simp [he0x] at h2
      have hnf : nb0.id ∉ fullIds st := by
        intro hmem2
        obtain ⟨nb2, hnb2, hid2⟩ := List.mem_map.mp hmem2
        have h2 := i5 nb2 hnb2 e0 he0 (he0id.trans hid2.symm)
        simp [he0x] at h2
      refine ⟨List.nodup_cons.mpr ⟨hnbP, p1⟩, ?_⟩
      intro p hp
      rcases List.mem_cons.mp hp with hp1 | hp1
      · subst hp1
        refine ⟨?_, hnf, ?_⟩
        · rw [← he0id]
          exact i2 e0 he0
        · intro e he heq
          exact hmark i1 e he heq
      · obtain ⟨a1, a2, a3⟩ := p2 p hp1
        refine ⟨a1, a2, ?_⟩
        intro e he heq
        rcases hmem e he with h1 | h1
        · exact a3 e h1 heq
        · exact h1

theorem popBeamGo_inv (ch : NodeId → Bool) (bw : ℕ) (st : LoopState) :
    ∀ (fuel fc : ℕ) (q : NeighborPriorityQueue) (P : List NodeId),
      Inv { st with retset := q } → Pending { st with retset := q } P →
      Inv { st with retset := (popBeamGo ch bw fuel fc q).2 } ∧
      Pending { st with retset := (popBeamGo ch bw fuel fc q).2 }
        ((popBeamGo ch bw fuel fc q).1 ++ P) := by
  intro fuel
  induction fuel with
  | zero =>
    intro fc q P hI hP
    exact ⟨hI, hP⟩
  | succ fuel ih =>
    intro fc q P hI hP
    rw [popBeamGo]
    split
    · split
      · exact ⟨hI, hP⟩
      · rename_i nb q2 hcu
        dsimp only
        obtain ⟨hI2, hP2⟩ := closestUnexpanded_inv hcu hI hP
        obtain ⟨hI3, hP3⟩ := ih (if ch nb.id then fc else fc + 1) q2 (nb.id :: P) hI2 hP2
        exact ⟨hI3, Pending_perm hP3 List.perm_middle⟩
    · exact ⟨hI, hP⟩

theorem popBeam_inv (ch : NodeId → Bool) (bw : ℕ) (st : LoopState) (P : List NodeId)
    (h : Inv st ∧ Pending st P) :
    Inv { st with retset := (popBeam ch bw st.retset).2 } ∧
    Pending { st with retset := (popBeam ch bw st.retset).2 }
      ((popBeam ch bw st.retset).1 ++ P) := by
  unfold popBeam
  exact popBeamGo_inv ch bw st bw 0 st.retset P h.1 h.2

theorem inv_full_push {st st2 : LoopState} {nid : NodeId} {d : Dist} {P : List NodeId}
    (hInv : Inv st) (hP : Pending st (nid :: P))
    (hr : st2.retset = st.retset) (hv : st2.visited = st.visited)
    (hf : st2.fullRetset = st.fullRetset ++ [{ id := nid, distance := d }]) :
    Inv st2 ∧ Pending st2 P := by
  obtain ⟨i1, i2, i3, i4, i5⟩ := hInv
  obtain ⟨p1, p2⟩ := hP
  obtain ⟨q1, q2, q3⟩ := p2 nid (List.mem_cons_self _ _)
  have hp1 := List.nodup_cons.mp p1
  constructor
  · refine ⟨?_, ?_, ?_, ?_, ?_⟩
    · unfold retIds
      rw [hr]
      exact i1
    · intro e he
      rw [hr] at he
      rw [hv]
      exact i2 e he
    · unfold fullIds
      rw [hf, List.map_append]
      refine List.Nodup.append i3 (List.nodup_singleton _) ?_
      intro x hx hy
      simp only [List.map_cons, List.map_nil, List.mem_singleton] at hy
      subst hy
      exact q2 hx
    · intro nb hnb
      rw [hf] at hnb
      rw [hv]
      rcases List.mem_append.mp hnb with h1 | h1
      · exact i4 nb h1
      · rw [List.mem_singleton] at h1
        subst h1
        exact q1
    · intro nb hnb e he heq
      rw [hf] at hnb
      rw [hr] at he
      rcases List.mem_append.mp hnb with h1 | h1
      · exact i5 nb h1 e he heq
      · rw [List.mem_singleton] at h1
        subst h1
        exact q3 e he heq
  · refine ⟨hp1.2, ?_⟩
    intro p hp
    obtain ⟨a1, a2, a3⟩ := p2 p (List.mem_cons_of_mem _ hp)
    refine ⟨?_, ?_, ?_⟩
    · rw [hv]
      exact a1
    · unfold fullIds
      rw [hf, List.map_append]
      intro hmem
      rcases List.mem_append.mp hmem with h1 | h1
      · exact a2 h1
      · simp only [List.map_cons, List.map_nil, List.mem_singleton] at h1
        subst h1
        exact hp1.1 hp
    · intro e he heq
      rw [hr] at he
      exact a3 e he heq

theorem insertNbrList_inv (c : SearchCtx) (b : Bool) (P : List NodeId) :
    ∀ (pairs : List (NodeId × Dist)) (st : LoopState),
      Inv st ∧ Pending st P →
      Inv (insertNbrList c b st pairs) ∧ Pending (insertNbrList c b st pairs) P := by
  intro pairs
  induction pairs with
  | nil =>
    intro st h
    exact h
  | cons p rest ih =>
    intro st h
    exact ih (insertOneNbr c b st p) (insertOneNbr_inv c b st p P h.1 h.2)

theorem processCachedOne_inv (c : SearchCtx) (st : LoopState) (nid : NodeId)
    (P : List NodeId) (h : Inv st ∧ Pending st (nid :: P)) :
    Inv (processCachedOne c st nid) ∧ Pending (processCachedOne c st nid) P := by
  unfold processCachedOne
  dsimp only
  split <;> (try split) <;> (try split) <;> (try split) <;>
    (refine insertNbrList_inv c false P _ _ ?_
     exact inv_full_push h.1 h.2 rfl rfl rfl)

theorem processFrontierOne_inv (c : SearchCtx) (acc : LoopState × List NodeId)
    (nid : NodeId) (P : List NodeId) (h : Inv acc.1 ∧ Pending acc.1 (nid :: P)) :
    Inv (processFrontierOne c acc nid).1 ∧ Pending (processFrontierOne c acc nid).1 P := by
  unfold processFrontierOne
  dsimp only
  split <;> (try split) <;> (try split) <;> (try split) <;> (try split) <;>
      (try split) <;> (try split) <;>
    first
    | (refine insertNbrList_inv c true P _ _ ?_
       exact inv_full_push h.1 h.2 rfl rfl rfl)
    | exact inv_full_push h.1 h.2 rfl rfl rfl

theorem processBatched_inv (c : SearchCtx) (st : LoopState) (batched : List NodeId)
    (P : List NodeId) (h : Inv st ∧ Pending st P) :
    Inv (processBatched c st batched) ∧ Pending (processBatched c st batched) P := by
  unfold processBatched
  dsimp only
  refine insertNbrList_inv c true P _ _ ?_
  exact ⟨Inv_congr rfl rfl rfl h.1, Pending_congr rfl rfl rfl h.2⟩

theorem foldl_processCached_inv (c : SearchCtx) (P0 : List NodeId) :
    ∀ (ids : List NodeId) (st : LoopState),
      Inv st ∧ Pending st (ids ++ P0) →
      Inv (ids.foldl (processCachedOne c) st) ∧
      Pending (ids.foldl (processCachedOne c) st) P0 := by
  intro ids
  induction ids with
  | nil =>
    intro st h
    exact h
  | cons nid rest ih =>
    intro st h
    exact ih (processCachedOne c st nid) (processCachedOne_inv c st nid (rest ++ P0) h)

theorem foldl_processFrontier_inv (c : SearchCtx) (P0 : List NodeId) :
    ∀ (ids : List NodeId) (acc : LoopState × List NodeId),
      Inv acc.1 ∧ Pending acc.1 (ids ++ P0) →
      Inv (ids.foldl (processFrontierOne c) acc).1 ∧
      Pending (ids.foldl (processFrontierOne c) acc).1 P0 := by
  intro ids
  induction ids with
  | nil =>
    intro acc h
    exact h
  | cons nid rest ih =>
    intro acc h
    exact ih (processFrontierOne c acc nid) (processFrontierOne_inv c acc nid (rest ++ P0) h)

theorem searchIter_inv (c : SearchCtx) (st : LoopState) (hInv : Inv st) :
    Inv (searchIter c st) := by
  obtain ⟨hI1, hP1⟩ := popBeam_inv (fun id => (c.env.nhoodCache id).isSome)
      c.beamWidth st [] ⟨hInv, pending_nil st⟩
  rw [List.append_nil] at hP1
  have hP1b : Pending { st with retset := (popBeam (fun id => (c.env.nhoodCache id).isSome) c.beamWidth st.retset).2 }
      ((popBeam (fun id => (c.env.nhoodCache id).isSome) c.beamWidth st.retset).1.filter (fun id => (c.env.nhoodCache id).isSome) ++ (popBeam (fun id => (c.env.nhoodCache id).isSome) c.beamWidth st.retset).1.filter (fun id => (c.env.nhoodCache id).isNone)) := by
    refine Pending_perm hP1 ?_
    have heq : (popBeam (fun id => (c.env.nhoodCache id).isSome) c.beamWidth st.retset).1.filter (fun id => (c.env.nhoodCache id).isNone) =
        (popBeam (fun id => (c.env.nhoodCache id).isSome) c.beamWidth st.retset).1.filter (fun id => !((c.env.nhoodCache id).isSome)) :=
      List.filter_congr (fun x _ => by cases c.env.nhoodCache x <;> rfl)
    rw [heq]
    exact (List.filter_append_perm _ _).symm
  have h3 : Inv (if ((popBeam (fun id => (c.env.nhoodCache id).isSome) c.beamWidth st.retset).1.filter (fun id => (c.env.nhoodCache id).isNone)).isEmpty then
      { st with
        retset := (popBeam (fun id => (c.env.nhoodCache id).isSome) c.beamWidth st.retset).2
        stats := { st.stats with
          nCacheHits := st.stats.nCacheHits + ((popBeam (fun id => (c.env.nhoodCache id).isSome) c.beamWidth st.retset).1.filter (fun id => (c.env.nhoodCache id).isSome)).length } }
    else
      { st with
        retset := (popBeam (fun id => (c.env.nhoodCache id).isSome) c.beamWidth st.retset).2
        numIos := st.numIos + ((popBeam (fun id => (c.env.nhoodCache id).isSome) c.beamWidth st.retset).1.filter (fun id => (c.env.nhoodCache id).isNone)).length
        stats := { st.stats with
          nCacheHits := st.stats.nCacheHits + ((popBeam (fun id => (c.env.nhoodCache id).isSome) c.beamWidth st.retset).1.filter (fun id => (c.env.nhoodCache id).isSome)).length
          nHops := st.stats.nHops + 1
          n4k := st.stats.n4k + ((popBeam (fun id => (c.env.nhoodCache id).isSome) c.beamWidth st.retset).1.filter (fun id => (c.env.nhoodCache id).isNone)).length
          nIos := st.stats.nIos + ((popBeam (fun id => (c.env.nhoodCache id).isSome) c.beamWidth st.retset).1.filter (fun id => (c.env.nhoodCache id).isNone)).length } }) ∧
      Pending (if ((popBeam (fun id => (c.env.nhoodCache id).isSome) c.beamWidth st.retset).1.filter (fun id => (c.env.nhoodCache id).isNone)).isEmpty then
      { st with
        retset := (popBeam (fun id => (c.env.nhoodCache id).isSome) c.beamWidth st.retset).2
        stats := { st.stats with
          nCacheHits := st.stats.nCacheHits + ((popBeam (fun id => (c.env.nhoodCache id).isSome) c.beamWidth st.retset).1.filter (fun id => (c.env.nhoodCache id).isSome)).length } }
    else
      { st with
        retset := (popBeam (fun id => (c.env.nhoodCache id).isSome) c.beamWidth st.retset).2
        numIos := st.numIos + ((popBeam (fun id => (c.env.nhoodCache id).isSome) c.beamWidth st.retset).1.filter (fun id => (c.env.nhoodCache id).isNone)).length
        stats := { st.stats with
          nCacheHits := st.stats.nCacheHits + ((popBeam (fun id => (c.env.nhoodCache id).isSome) c.beamWidth st.retset).1.filter (fun id => (c.env.nhoodCache id).isSome)).length
          nHops := st.stats.nHops + 1
          n4k := st.stats.n4k + ((popBeam (fun id => (c.env.nhoodCache id).isSome) c.beamWidth st.retset).1.filter (fun id => (c.env.nhoodCache id).isNone)).length
          nIos := st.stats.nIos + ((popBeam (fun id => (c.env.nhoodCache id).isSome) c.beamWidth st.retset).1.filter (fun id => (c.env.nhoodCache id).isNone)).length } }) ((popBeam (fun id => (c.env.nhoodCache id).isSome) c.beamWidth st.retset).1.filter (fun id => (c.env.nhoodCache id).isSome) ++ (popBeam (fun id => (c.env.nhoodCache id).isSome) c.beamWidth st.retset).1.filter (fun id => (c.env.nhoodCache id).isNone)) :=
    ⟨Inv_congr (by split <;> rfl) (by split <;> rfl) (by split <;> rfl) hI1,
     Pending_congr (by split <;> rfl) (by split <;> rfl) (by split <;> rfl) hP1b⟩
  have h4 := foldl_processCached_inv c ((popBeam (fun id => (c.env.nhoodCache id).isSome) c.beamWidth st.retset).1.filter (fun id => (c.env.nhoodCache id).isNone)) ((popBeam (fun id => (c.env.nhoodCache id).isSome) c.beamWidth st.retset).1.filter (fun id => (c.env.nhoodCache id).isSome)) (if ((popBeam (fun id => (c.env.nhoodCache id).isSome) c.beamWidth st.retset).1.filter (fun id => (c.env.nhoodCache id).isNone)).isEmpty then
      { st with
        retset := (popBeam (fun id => (c.env.nhoodCache id).isSome) c.beamWidth st.retset).2
        stats := { st.stats with
          nCacheHits := st.stats.nCacheHits + ((popBeam (fun id => (c.env.nhoodCache id).isSome) c.beamWidth st.retset).1.filter (fun id => (c.env.nhoodCache id).isSome)).length } }
    else
      { st with
        retset := (popBeam (fun id => (c.env.nhoodCache id).isSome) c.beamWidth st.retset).2
        numIos := st.numIos + ((popBeam (fun id => (c.env.nhoodCache id).isSome) c.beamWidth st.retset).1.filter (fun id => (c.env.nhoodCache id).isNone)).length
        stats := { st.stats with
          nCacheHits := st.stats.nCacheHits + ((popBeam (fun id => (c.env.nhoodCache id).isSome) c.beamWidth st.retset).1.filter (fun id => (c.env.nhoodCache id).isSome)).length
          nHops := st.stats.nHops + 1
          n4k := st.stats.n4k + ((popBeam (fun id => (c.env.nhoodCache id).isSome) c.beamWidth st.retset).1.filter (fun id => (c.env.nhoodCache id).isNone)).length
          nIos := st.stats.nIos + ((popBeam (fun id => (c.env.nhoodCache id).isSome) c.beamWidth st.retset).1.filter (fun id => (c.env.nhoodCache id).isNone)).length } }) h3
  have h5 := foldl_processFrontier_inv c [] ((popBeam (fun id => (c.env.nhoodCache id).isSome) c.beamWidth st.retset).1.filter (fun id => (c.env.nhoodCache id).isNone))
      (((popBeam (fun id => (c.env.nhoodCache id).isSome) c.beamWidth st.retset).1.filter (fun id => (c.env.nhoodCache id).isSome)).foldl (processCachedOne c) (if ((popBeam (fun id => (c.env.nhoodCache id).isSome) c.beamWidth st.retset).1.filter (fun id => (c.env.nhoodCache id).isNone)).isEmpty then
      { st with
        retset := (popBeam (fun id => (c.env.nhoodCache id).isSome) c.beamWidth st.retset).2
        stats := { st.stats with
          nCacheHits := st.stats.nCacheHits + ((popBeam (fun id => (c.env.nhoodCache id).isSome) c.beamWidth st.retset).1.filter (fun id => (c.env.nhoodCache id).isSome)).length } }
    else
      { st with
        retset := (popBeam (fun id => (c.env.nhoodCache id).isSome) c.beamWidth st.retset).2
        numIos := st.numIos + ((popBeam (fun id => (c.env.nhoodCache id).isSome) c.beamWidth st.retset).1.filter (fun id => (c.env.nhoodCache id).isNone)).length
        stats := { st.stats with
          nCacheHits := st.stats.nCacheHits + ((popBeam (fun id => (c.env.nhoodCache id).isSome) c.beamWidth st.retset).1.filter (fun id => (c.env.nhoodCache id).isSome)).length
          nHops := st.stats.nHops + 1
          n4k := st.stats.n4k + ((popBeam (fun id => (c.env.nhoodCache id).isSome) c.beamWidth st.retset).1.filter (fun id => (c.env.nhoodCache id).isNone)).length
          nIos := st.stats.nIos + ((popBeam (fun id => (c.env.nhoodCache id).isSome) c.beamWidth st.retset).1.filter (fun id => (c.env.nhoodCache id).isNone)).length } }), [])
      ⟨h4.1, by rw [List.append_nil]; exact h4.2⟩
  have h6 : Inv (if c.flags.batchRecompute then
        processBatched c (((popBeam (fun id => (c.env.nhoodCache id).isSome) c.beamWidth st.retset).1.filter (fun id => (c.env.nhoodCache id).isNone)).foldl (processFrontierOne c) (((popBeam (fun id => (c.env.nhoodCache id).isSome) c.beamWidth st.retset).1.filter (fun id => (c.env.nhoodCache id).isSome)).foldl (processCachedOne c) (if ((popBeam (fun id => (c.env.nhoodCache id).isSome) c.beamWidth st.retset).1.filter (fun id => (c.env.nhoodCache id).isNone)).isEmpty then
      { st with
        retset := (popBeam (fun id => (c.env.nhoodCache id).isSome) c.beamWidth st.retset).2
        stats := { st.stats with
          nCacheHits := st.stats.nCacheHits + ((popBeam (fun id => (c.env.nhoodCache id).isSome) c.beamWidth st.retset).1.filter (fun id => (c.env.nhoodCache id).isSome)).length } }
    else
      { st with
        retset := (popBeam (fun id => (c.env.nhoodCache id).isSome) c.beamWidth st.retset).2
        numIos := st.numIos + ((popBeam (fun id => (c.env.nhoodCache id).isSome) c.beamWidth st.retset).1.filter (fun id => (c.env.nhoodCache id).isNone)).length
        stats := { st.stats with
          nCacheHits := st.stats.nCacheHits + ((popBeam (fun id => (c.env.nhoodCache id).isSome) c.beamWidth st.retset).1.filter (fun id => (c.env.nhoodCache id).isSome)).length
          nHops := st.stats.nHops + 1
          n4k := st.stats.n4k + ((popBeam (fun id => (c.env.nhoodCache id).isSome) c.beamWidth st.retset).1.filter (fun id => (c.env.nhoodCache id).isNone)).length
          nIos := st.stats.nIos + ((popBeam (fun id => (c.env.nhoodCache id).isSome) c.beamWidth st.retset).1.filter (fun id => (c.env.nhoodCache id).isNone)).length } }), [])).1 (((popBeam (fun id => (c.env.nhoodCache id).isSome) c.beamWidth st.retset).1.filter (fun id => (c.env.nhoodCache id).isNone)).foldl (processFrontierOne c) (((popBeam (fun id => (c.env.nhoodCache id).isSome) c.beamWidth st.retset).1.filter (fun id => (c.env.nhoodCache id).isSome)).foldl (processCachedOne c) (if ((popBeam (fun id => (c.env.nhoodCache id).isSome) c.beamWidth st.retset).1.filter (fun id => (c.env.nhoodCache id).isNone)).isEmpty then
      { st with
        retset := (popBeam (fun id => (c.env.nhoodCache id).isSome) c.beamWidth st.retset).2
        stats := { st.stats with
          nCacheHits := st.stats.nCacheHits + ((popBeam (fun id => (c.env.nhoodCache id).isSome) c.beamWidth st.retset).1.filter (fun id => (c.env.nhoodCache id).isSome)).length } }
    else
      { st with
        retset := (popBeam (fun id => (c.env.nhoodCache id).isSome) c.beamWidth st.retset).2
        numIos := st.numIos + ((popBeam (fun id => (c.env.nhoodCache id).isSome) c.beamWidth st.retset).1.filter (fun id => (c.env.nhoodCache id).isNone)).length
        stats := { st.stats with
          nCacheHits := st.stats.nCacheHits + ((popBeam (fun id => (c.env.nhoodCache id).isSome) c.beamWidth st.retset).1.filter (fun id => (c.env.nhoodCache id).isSome)).length
          nHops := st.stats.nHops + 1
          n4k := st.stats.n4k + ((popBeam (fun id => (c.env.nhoodCache id).isSome) c.beamWidth st.retset).1.filter (fun id => (c.env.nhoodCache id).isNone)).length
          nIos := st.stats.nIos + ((popBeam (fun id => (c.env.nhoodCache id).isSome) c.beamWidth st.retset).1.filter (fun id => (c.env.nhoodCache id).isNone)).length } }), [])).2
      else (((popBeam (fun id => (c.env.nhoodCache id).isSome) c.beamWidth st.retset).1.filter (fun id => (c.env.nhoodCache id).isNone)).foldl (processFrontierOne c) (((popBeam (fun id => (c.env.nhoodCache id).isSome) c.beamWidth st.retset).1.filter (fun id => (c.env.nhoodCache id).isSome)).foldl (processCachedOne c) (if ((popBeam (fun id => (c.env.nhoodCache id).isSome) c.beamWidth st.retset).1.filter (fun id => (c.env.nhoodCache id).isNone)).isEmpty then
      { st with
        retset := (popBeam (fun id => (c.env.nhoodCache id).isSome) c.beamWidth st.retset).2
        stats := { st.stats with
          nCacheHits := st.stats.nCacheHits + ((popBeam (fun id => (c.env.nhoodCache id).isSome) c.beamWidth st.retset).1.filter (fun id => (c.env.nhoodCache id).isSome)).length } }
    else
      { st with
        retset := (popBeam (fun id => (c.env.nhoodCache id).isSome) c.beamWidth st.retset).2
        numIos := st.numIos + ((popBeam (fun id => (c.env.nhoodCache id).isSome) c.beamWidth st.retset).1.filter (fun id => (c.env.nhoodCache id).isNone)).length
        stats := { st.stats with
          nCacheHits := st.stats.nCacheHits + ((popBeam (fun id => (c.env.nhoodCache id).isSome) c.beamWidth st.retset).1.filter (fun id => (c.env.nhoodCache id).isSome)).length
          nHops := st.stats.nHops + 1
          n4k := st.stats.n4k + ((popBeam (fun id => (c.env.nhoodCache id).isSome) c.beamWidth st.retset).1.filter (fun id => (c.env.nhoodCache id).isNone)).length
          nIos := st.stats.nIos + ((popBeam (fun id => (c.env.nhoodCache id).isSome) c.beamWidth st.retset).1.filter (fun id => (c.env.nhoodCache id).isNone)).length } }), [])).1) := by
    split
    · exact (processBatched_inv c _ _ [] h5).1
    · exact h5.1
  exact Inv_congr rfl rfl rfl h6

theorem searchLoop_inv (c : SearchCtx) :
    ∀ (fuel : ℕ) (st st2 : LoopState), searchLoop c fuel st = some st2 →
      Inv st → Inv st2 := by
  intro fuel
  induction fuel with
  | zero =>
    intro st st2 h hI
    unfold searchLoop at h
    split at h
    · simp at h
    · simp only [Option.some.injEq] at h
      rw [← h]
      exact hI
  | succ f ih =>
    intro st st2 h hI
    unfold searchLoop at h
    split at h
    · exact ih (searchIter c st) st2 h (searchIter_inv c st hI)
    · simp only [Option.some.injEq] at h
      rw [← h]
      exact hI

theorem initState_inv {c : SearchCtx} {l : ℕ} {s0 : QueryStats} {st0 : LoopState}
    (h : initState c l s0 = .ok st0) : Inv st0 := by
  unfold initState at h
  split at h
  · simp at h
  · rename_i best dctx hsel
    try dsimp only at h
    simp only [Except.ok.injEq] at h
    rw [← h]
    refine ⟨?_, ?_, ?_, ?_, ?_⟩
    · exact npq_insert_ids_nodup List.nodup_nil
    · intro e he
      rcases npq_insert_mem he with h1 | h1
      · exact absurd h1 (List.not_mem_nil e)
      · rw [h1]
        exact List.mem_cons_self _ _
    · exact List.nodup_nil
    · intro nb hnb
      exact absurd hnb (List.not_mem_nil nb)
    · intro nb hnb
      exact absurd hnb (List.not_mem_nil nb)

theorem searchFinish_ok_full_nodup {c : SearchCtx} {qn : ℚ} {k : ℕ}
    {i0 : List NodeId} {d0 : List Dist} {st : LoopState} {res : SearchResult}
    (h : searchFinish c qn k i0 d0 st = .ok res)
    (hnd : (st.fullRetset.map (fun nb => nb.id)).Nodup) :
    (res.fullRetset.map (fun nb => nb.id)).Nodup := by
  unfold searchFinish at h
  split at h
  · simp at h
  · simp only [Except.ok.injEq] at h
    rw [← h]
    exact hnd
  · rename_i full0 heq
    try dsimp only at h
    split at h
    · simp at h
    · rename_i full stats hreo
      split at h
      · simp at h
      · simp only [Except.ok.injEq] at h
        rw [← h]
        refine reorderStage_ok_ids_nodup hreo ?_
        have hperm := (List.perm_insertionSort nbrLe full0).map (fun nb => nb.id)
        refine hperm.nodup_iff.mpr ?_
        rw [deferredStage_ok_ids heq]
        exact hnd

/-- C1 (amended): on every normally-returning `cached_beam_search` the node
ids held in `full_retset` are pairwise distinct — the traversal never pushes
the same id twice — and hence so are the ids of the top-`k` prefix copied to
the output buffer before the dummy remap (after the remap duplicates are
possible, see `dummy_remap_duplicates_output`). -/
theorem fullRetset_ids_nodup (env : IndexEnv) (fuel : ℕ) (q : Vec)
    (k l : ℕ) (i0 : List NodeId) (d0 : List Dist) (bw : ℕ) (fl : SearchFlags)
    (io : ℕ) (s0 : QueryStats) (res : SearchResult)
    (h : cachedBeamSearch env fuel q k l i0 d0 bw fl io s0 = .ok res) :
    (res.fullRetset.map (fun nb => nb.id)).Nodup ∧
    ((res.fullRetset.take k).map (fun nb => nb.id)).Nodup := by
  obtain ⟨st0, st, hst0, hloop, hfin⟩ := cachedBeamSearch_ok_decompose h
  have hI : Inv st := searchLoop_inv _ fuel st0 st hloop (initState_inv hst0)
  have hnd := searchFinish_ok_full_nodup hfin hI.2.2.1
  exact ⟨hnd, hnd.sublist ((List.take_sublist _ _).map _)⟩

theorem fullRetset_ids_nodup_witness :
    (res1.fullRetset.map (fun nb => nb.id)).Nodup ∧
    ((res1.fullRetset.take 5).map (fun nb => nb.id)).Nodup :=
  fullRetset_ids_nodup E1 100 [0] 5 5 (List.replicate 5 0)
    (List.replicate 5 fltMax) 4 defaultFlags UINT32_MAX {} res1 (by decide)

theorem deferredStage_off {c : SearchCtx} (hoff : c.flags.deferredFetch = false)
    (full : List Neighbor) : deferredStage c full = .ok (some full) := by
  unfold deferredStage
  simp [hoff]

theorem searchFinish_off_facts {c : SearchCtx} {qn : ℚ} {k : ℕ}
    {i0 : List NodeId} {d0 : List Dist} {st : LoopState} {res : SearchResult}
    (hoff : c.flags.deferredFetch = false)
    (h : searchFinish c qn k i0 d0 st = .ok res) :
    res.earlyReturn = false ∧ k ≤ res.distances.length := by
  unfold searchFinish at h
  rw [deferredStage_off hoff] at h
  try dsimp only at h
  split at h
  · simp at h
  · rename_i full stats hreo
    split at h
    · simp at h
    · rename_i hlen
      simp only [Except.ok.injEq] at h
      rw [← h]
      refine ⟨rfl, ?_⟩
      simp only [List.length_append, List.length_map, List.length_take]
      omega

theorem cachedBeamSearch_ok_len {env : IndexEnv} {fuel : ℕ} {q : Vec}
    {k l : ℕ} {i0 : List NodeId} {d0 : List Dist} {bw io : ℕ}
    {s0 : QueryStats} {res : SearchResult}
    (h : cachedBeamSearch env fuel q k l i0 d0 bw defaultFlags io s0 = .ok res) :
    res.earlyReturn = false ∧ k ≤ res.distances.length := by
  obtain ⟨st0, st, hst0, hloop, hfin⟩ := cachedBeamSearch_ok_decompose h
  exact searchFinish_off_facts rfl hfin

theorem take_findIdx_eq_takeWhile {α : Type} (p : α → Bool) :
    ∀ (xs : List α), xs.take (xs.findIdx p) = xs.takeWhile (fun x => !(p x))
  | [] => rfl
  | x :: xs => by
    rw [List.findIdx_cons, List.takeWhile_cons]
    cases hx : p x with
    | true => simp
    | false =>
      simp only [Bool.not_false, cond_false, List.take_succ_cons, if_pos]
      rw [take_findIdx_eq_takeWhile p xs]

theorem rangeSearchGo_spec (env : IndexEnv) (fi : ℕ) (q : Vec) (range : ℚ)
    (minBw maxL : ℕ) :
    ∀ (fuel l : ℕ) (i0 : List ℕ) (d0 : List Dist) (rcPrev : ℕ)
      (stats : QueryStats) (tr0 : List (ℕ × ℕ)) (r : RangeResult),
      rangeSearchGo env fi q range minBw maxL fuel l i0 d0 rcPrev stats tr0 = .ok r →
      1 ≤ l →
      ∃ tr1 lf, r.trace = tr0 ++ tr1 ∧
        traceFinal maxL l tr1 = some (lf, r.resCount) ∧
        r.indices = r.lastInds.take r.resCount ∧
        r.distances = r.lastDs.take r.resCount ∧
        r.resCount = (r.lastDs.take lf).findIdx (fun d => decide (d > range)) := by
  intro fuel
  induction fuel with
  | zero =>
    intro l i0 d0 rcPrev stats tr0 r h hl
    rw [rangeSearchGo] at h
    simp at h
  | succ f ih =>
    intro l i0 d0 rcPrev stats tr0 r h hl
    rw [rangeSearchGo] at h
    try dsimp only at h
    split at h
    · simp at h
    · rename_i res hsearch
      have hdlen : l ≤ res.distances.length := (cachedBeamSearch_ok_len hsearch).2
      have htk : ¬((res.distances.take l).isEmpty = true) := by
        rw [List.isEmpty_iff]
        intro hnil
        have hlen0 := congrArg List.length hnil
        simp only [List.length_take, List.length_nil] at hlen0
        omega
      have hrc : rangeResCount (res.distances.take l) range rcPrev =
          (res.distances.take l).findIdx (fun d => decide (d > range)) := by
        unfold rangeResCount
        rw [if_neg htk]
      rw [hrc] at h
      split at h
      · rename_i hstop
        have hsc : stopCond maxL l
            ((res.distances.take l).findIdx (fun d => decide (d > range))) = true := by
          unfold stopCond
          simp only [Bool.or_eq_true, decide_eq_true_eq]
          exact hstop
        simp only [Except.ok.injEq] at h
        subst h
        refine ⟨[(l, (res.distances.take l).findIdx (fun d => decide (d > range)))], l,
          rfl, ?_, rfl, rfl, rfl⟩
        simp only [traceFinal]
        rw [if_pos ⟨by simp, hsc⟩]
      · rename_i hnostop
        have hsc : ¬(stopCond maxL l
            ((res.distances.take l).findIdx (fun d => decide (d > range))) = true) := by
          unfold stopCond
          simp only [Bool.or_eq_true, decide_eq_true_eq]
          exact hnostop
        obtain ⟨tr1, lf, htr, hfin, hi, hd, hrc2⟩ := ih (l * 2) res.indices res.distances
          ((res.distances.take l).findIdx (fun d => decide (d > range))) res.stats
          (tr0 ++ [(l, (res.distances.take l).findIdx (fun d => decide (d > range)))])
          r h (by omega)
        refine ⟨(l, (res.distances.take l).findIdx (fun d => decide (d > range))) :: tr1,
          lf, ?_, ?_, hi, hd, hrc2⟩
        · rw [htr, List.append_assoc]
          rfl
        · cases tr1 with
          | nil => simp [traceFinal] at hfin
          | cons e2 rest =>
            simp only [traceFinal]
            rw [if_pos ⟨by simp, hsc⟩]
            exact hfin

/-- C7 (amended): `range_search` starts `l_search` at `min_l_search` and
doubles it each iteration; it stops exactly when the within-range count
drops below `⌊l_search/2⌋` (the `(uint32_t)(l_search/2.0)` cast floors, so
for odd `l_search` this is weaker than "fewer than half") or when the
doubled `l_search` would exceed `max_l_search`; it returns exactly the
prefix of the final result whose distances are `≤ range`, with the
returned count equal to that prefix's length. -/
theorem range_search_loop_spec (env : IndexEnv) (fo fi : ℕ) (q : Vec)
    (range : ℚ) (minL maxL : ℕ) (i0 : List ℕ) (d0 : List Dist) (minBw : ℕ)
    (s0 : QueryStats) (r : RangeResult)
    (h : rangeSearch env fo fi q range minL maxL i0 d0 minBw s0 = .ok r)
    (hl : 1 ≤ minL) :
    ∃ lf, traceFinal maxL minL r.trace = some (lf, r.resCount) ∧
      r.indices = r.lastInds.take r.resCount ∧
      r.distances = r.lastDs.take r.resCount ∧
      r.distances = (r.lastDs.take lf).takeWhile (fun d => decide (d ≤ range)) ∧
      r.resCount = ((r.lastDs.take lf).takeWhile (fun d => decide (d ≤ range))).length := by
  obtain ⟨tr1, lf, htr, hfin, hi, hd, hrc⟩ :=
    rangeSearchGo_spec env fi q range minBw maxL fo minL i0 d0 0 s0 [] r h hl
  rw [List.nil_append] at htr
  have hfun : (fun d : Dist => !(decide (d > range))) =
      (fun d : Dist => decide (d ≤ range)) := by
    funext d
    by_cases hdr : d ≤ range
    · simp [hdr, not_lt.mpr hdr]
    · simp [hdr, not_le.mp hdr]
  have key : (r.lastDs.take lf).take r.resCount =
      (r.lastDs.take lf).takeWhile (fun d => decide (d ≤ range)) := by
    rw [hrc, take_findIdx_eq_takeWhile, hfun]
  have hle : r.resCount ≤ (r.lastDs.take lf).length := by
    rw [hrc]
    exact List.findIdx_le_length _
  have h2 : r.lastDs.take r.resCount = (r.lastDs.take lf).take r.resCount := by
    rw [List.take_take, min_eq_left (le_trans hle (List.length_take_le _ _))]
  have hlen2 : ((r.lastDs.take lf).take r.resCount).length = r.resCount := by
    rw [List.length_take]
    exact min_eq_left hle
  refine ⟨lf, ?_, hi, hd, ?_, ?_⟩
  · rw [htr]
    exact hfin
  · rw [hd, h2, key]
  · rw [← key, hlen2]

theorem range_search_loop_spec_witness :
    ∃ lf, traceFinal 10 5 rres7.trace = some (lf, rres7.resCount) ∧
      rres7.indices = rres7.lastInds.take rres7.resCount ∧
      rres7.distances = rres7.lastDs.take rres7.resCount ∧
      rres7.distances = (rres7.lastDs.take lf).takeWhile (fun d => decide (d ≤ (3 : ℚ) / 2)) ∧
      rres7.resCount =
        ((rres7.lastDs.take lf).takeWhile (fun d => decide (d ≤ (3 : ℚ) / 2))).length :=
  range_search_loop_spec E1 50 100 [0] (3 / 2) 5 10 [] [] 1 {} rres7
    (by decide) (by decide)

theorem inner_product_output_scaling_witness :
    resIP.distances.getD 1 0 =
      (if EIP.maxBaseNorm ≠ 0 then
        -(resIP.fullRetset.getD 1 { id := 0, distance := 0 }).distance *
          (EIP.maxBaseNorm * queryNormOf EIP [1])
       else -(resIP.fullRetset.getD 1 { id := 0, distance := 0 }).distance) :=
  inner_product_output_scaling EIP 100 [1] 2 2 [0, 0] [0, 0] 2 defaultFlags
    UINT32_MAX {} resIP 1 (by decide) (by decide) (by decide) (by decide)

end DiskANN
